import Mathlib

/-!
# Verification of the court-PDF ingestion pipeline

Shallow embedding of the pipeline implemented under `src/`:

* Python `str` values are modelled as `List Char` (a Python string is a
  sequence of code points); the alias is `PyStr`.
* Python `float` values are modelled as `ℚ` (every configuration threshold
  and confidence compared in the claims is exactly representable, and none
  of the comparisons in the claims is sensitive to the float/rational gap).
* External collaborators (blob store, Cosmos DB, Azure OpenAI, Azure Search,
  the filesystem) are modelled as explicit oracles: a record of functions
  giving the outcome of each external call.  A Python function that may
  raise is modelled with `Except`; a raised exception is an `Except.error`.
* Thread pools (`ThreadPoolExecutor`) are modelled sequentially; the
  pipeline only ever relies on the keyed results, never on completion order.
-/

/-- A Python string: a sequence of code points. -/
abbrev PyStr := List Char

/-- Build a `PyStr` from a Lean string literal. -/
def pyStr (s : String) : PyStr := s.data

/-- Python `str.isspace`-style whitespace for `strip()` (ASCII part;
`strip` with no arguments removes these characters from both ends). -/
def pyIsSpace (c : Char) : Bool :=
  c = ' ' || c = '\t' || c = '\n' || c = '\x0d' || c = '\x0b' || c = '\x0c'

/-- Python `str.strip()`: drop whitespace from both ends. -/
def pyStrip (s : PyStr) : PyStr :=
  ((s.dropWhile pyIsSpace).reverse.dropWhile pyIsSpace).reverse

/-! ## Configuration constants (src/config/settings.py, src/config/config.py) -/

/-- `ProcessingConfig.OCR_MIN_TEXT_LENGTH` (src/config/settings.py). -/
def OCR_MIN_TEXT_LENGTH : Nat := 1000

/-- `ProcessingConfig.OCR_MIN_CONFIDENCE` (src/config/settings.py). -/
def OCR_MIN_CONFIDENCE : ℚ := 40 / 100

/-- `Config.MAX_RETRIES` (src/config/config.py), also
`ProcessingConfig.MAX_RETRIES` (src/config/settings.py). -/
def MAX_RETRIES : Nat := 5

/-- `Config.RETRY_DELAY` (src/config/config.py). -/
def RETRY_DELAY : ℚ := 5

/-- `ProcessingConfig.BASE_DELAY` (src/config/settings.py). -/
def BASE_DELAY : ℚ := 2

/-! ## C6: the OCR quality gate (src/processors/ocr_processor.py) -/

/-- `OCRProcessor._validate_ocr_results` (src/processors/ocr_processor.py,
lines 105-122): reject if the stripped text is shorter than
`OCR_MIN_TEXT_LENGTH`, or the confidence is below `OCR_MIN_CONFIDENCE`,
or the stripped text is empty. -/
def validate_ocr_results (text : PyStr) (confidence : ℚ) : Bool :=
  if (pyStrip text).length < OCR_MIN_TEXT_LENGTH then false
  else if confidence < OCR_MIN_CONFIDENCE then false
  else if pyStrip text = [] then false
  else true

/-! ## C5: sharding (src/utils/logging_config.py `divide_list` and the
interleaved partition `items[server_number::server_count]` of
src/pipeline/pipeline.py `index_from_cosmos`). -/

/-- `divide_list(items, total_servers, server_id)`
(src/utils/logging_config.py, lines 48-59).  Server counts and ids are
modelled as `Nat`; the Python guard `server_id < 0` is vacuous here and the
guard `total_servers <= 0` becomes `total_servers = 0`. -/
def divide_list (items : List α) (total_servers server_id : Nat) : List α :=
  if items.isEmpty ∨ total_servers = 0 ∨ total_servers ≤ server_id then []
  else
    let chunk_size := items.length / total_servers
    let remainder := items.length % total_servers
    let start_idx := server_id * chunk_size + min server_id remainder
    let end_idx := start_idx + chunk_size + (if server_id < remainder then 1 else 0)
    (items.drop start_idx).take (end_idx - start_idx)

/-- The Python extended slice `items[start::step]` for `step ≥ 1`:
every `step`-th element of `items.drop start`.  `sliceStepAux k l` takes
every `(k+1)`-th element of `l` starting with its head. -/
def sliceStepAux (k : Nat) : List α → List α
  | [] => []
  | a :: tl => a :: sliceStepAux k (tl.drop k)
termination_by l => l.length
decreasing_by
  simp only [List.length_drop, List.length_cons]
  omega

/-- `items[start::step]` (used as `documents_to_index[server_number::server_count]`
in src/pipeline/pipeline.py, line 197). -/
def sliceStep (items : List α) (start step : Nat) : List α :=
  sliceStepAux (step - 1) (items.drop start)

/-! ### Supporting lemmas for the partition claims -/

/-- Offset of shard `i` in `divide_list`:
`i * chunk_size + min i remainder`. -/
def shardOffset (n k i : Nat) : Nat := i * (n / k) + min i (n % k)

theorem shardOffset_zero (n k : Nat) : shardOffset n k 0 = 0 := by
  simp [shardOffset]

theorem shardOffset_le_succ (n k i : Nat) :
    shardOffset n k i ≤ shardOffset n k (i + 1) := by
  unfold shardOffset
  have : i * (n / k) ≤ (i + 1) * (n / k) :=
    Nat.mul_le_mul_right _ (Nat.le_succ i)
  omega

theorem shardOffset_mono (n k : Nat) : Monotone (shardOffset n k) :=
  monotone_nat_of_le_succ (shardOffset_le_succ n k)

theorem shardOffset_top (n k : Nat) (hk : 1 ≤ k) : shardOffset n k k = n := by
  unfold shardOffset
  have hlt : n % k < k := Nat.mod_lt _ hk
  have hdm : k * (n / k) + n % k = n := Nat.div_add_mod n k
  have hmin : min k (n % k) = n % k := by omega
  rw [hmin]
  exact hdm

/-- Concatenating consecutive `drop/take` segments cut at the values of a
monotone offset function reconstructs the list. -/
theorem flatten_segments (k : Nat) :
    ∀ (l : List α) (f : Nat → Nat), f 0 = 0 → (∀ i, f i ≤ f (i + 1)) →
      l.length ≤ f k →
      ((List.range k).map (fun i => (l.drop (f i)).take (f (i + 1) - f i))).flatten = l := by
  induction k with
  | zero =>
    intro l f h0 _ hk
    rw [h0] at hk
    simp [List.eq_nil_of_length_eq_zero (Nat.le_zero.mp hk)]
  | succ m ih =>
    intro l f h0 hmono hk
    have hchain : Monotone f := monotone_nat_of_le_succ hmono
    rw [List.range_succ_eq_map, List.map_cons, List.map_map, List.flatten_cons]
    have head_eq : (l.drop (f 0)).take (f 1 - f 0) = l.take (f 1) := by
      rw [h0]; simp
    rw [head_eq]
    have ihh : ((List.range m).map
        (fun i => ((l.drop (f 1)).drop (f (i + 1) - f 1)).take
          ((f (i + 1 + 1) - f 1) - (f (i + 1) - f 1)))).flatten = l.drop (f 1) := by
      refine ih (l.drop (f 1)) (fun j => f (j + 1) - f 1) ?_ ?_ ?_
      · show f (0 + 1) - f 1 = 0
        norm_num
      · intro i
        show f (i + 1) - f 1 ≤ f (i + 1 + 1) - f 1
        have := hmono (i + 1)
        omega
      · show (l.drop (f 1)).length ≤ f (m + 1) - f 1
        have h1 : f 1 ≤ f (m + 1) := hchain (by omega)
        simp only [List.length_drop]
        omega
    have tail_eq :
        (List.range m).map ((fun i => (l.drop (f i)).take (f (i + 1) - f i)) ∘ Nat.succ) =
        (List.range m).map
          (fun i => ((l.drop (f 1)).drop (f (i + 1) - f 1)).take
            ((f (i + 1 + 1) - f 1) - (f (i + 1) - f 1))) := by
      apply List.map_congr_left
      intro i _
      have h1 : f 1 ≤ f (i + 1) := hchain (by omega)
      have h2 : f (i + 1) ≤ f (i + 1 + 1) := hmono (i + 1)
      simp only [Function.comp_apply, Nat.succ_eq_add_one, List.drop_drop]
      have ea : f 1 + (f (i + 1) - f 1) = f (i + 1) := by omega
      have eb : f (i + 1 + 1) - f 1 - (f (i + 1) - f 1) = f (i + 1 + 1) - f (i + 1) := by
        omega
      rw [ea, eb]
    rw [tail_eq, ihh]
    exact List.take_append_drop (f 1) l

/-- `divide_list` computes exactly the `shardOffset` segment. -/
theorem divide_list_eq_segment (items : List α) (k i : Nat) (hk : 1 ≤ k)
    (hik : i < k) :
    divide_list items k i =
      (items.drop (shardOffset items.length k i)).take
        (shardOffset items.length k (i + 1) - shardOffset items.length k i) := by
  rcases items with _ | ⟨a, tl⟩
  · simp [divide_list, shardOffset]
  · have hcond : ¬((a :: tl).isEmpty ∨ k = 0 ∨ k ≤ i) := by
      simp only [List.isEmpty_cons, Bool.false_eq_true, false_or]
      omega
    simp only [divide_list, if_neg hcond, shardOffset]
    congr 1
    have hmul : (i + 1) * ((a :: tl).length / k) =
        i * ((a :: tl).length / k) + (a :: tl).length / k := by ring
    rw [hmul]
    rcases Nat.lt_or_ge i ((a :: tl).length % k) with h | h
    · rw [if_pos h, Nat.min_eq_left (by omega), Nat.min_eq_left (by omega)]
      omega
    · rw [if_neg (by omega), Nat.min_eq_right (by omega), Nat.min_eq_right (by omega)]
      omega

theorem sliceStepAux_nil (k : Nat) : sliceStepAux k ([] : List α) = [] := by
  rw [sliceStepAux]

theorem sliceStepAux_cons (k : Nat) (a : α) (tl : List α) :
    sliceStepAux k (a :: tl) = a :: sliceStepAux k (tl.drop k) := by
  rw [sliceStepAux]

/-- The interleaved slices `l[i::k]` for `i < k` together contain every
element of `l` exactly once (as a multiset). -/
theorem flatten_sliceStep_perm (m : Nat) :
    ∀ (l : List α),
      ((List.range (m + 1)).map (fun i => sliceStepAux m (l.drop i))).flatten.Perm l := by
  intro l
  induction l with
  | nil =>
    have hnil : (List.range (m + 1)).map (fun i => sliceStepAux m (([] : List α).drop i)) =
        (List.range (m + 1)).map (fun _ => ([] : List α)) := by
      apply List.map_congr_left
      intro i _
      simp [sliceStepAux_nil]
    rw [hnil]
    simp
  | cons a tl ih =>
    rw [List.range_succ_eq_map, List.map_cons, List.map_map, List.flatten_cons]
    have head_eq : sliceStepAux m ((a :: tl).drop 0) = a :: sliceStepAux m (tl.drop m) := by
      rw [List.drop_zero, sliceStepAux_cons]
    rw [head_eq]
    have tail_eq :
        (List.range m).map ((fun i => sliceStepAux m ((a :: tl).drop i)) ∘ Nat.succ) =
        (List.range m).map (fun i => sliceStepAux m (tl.drop i)) := by
      apply List.map_congr_left
      intro i _
      simp
    rw [tail_eq]
    rw [List.range_succ, List.map_append, List.flatten_append] at ih
    simp only [List.map_cons, List.map_nil, List.flatten_cons, List.flatten_nil,
      List.append_nil] at ih
    simp only [List.cons_append]
    exact (List.perm_append_comm.cons a).trans (ih.cons a)

/-- **C5.** For every list and every `shardCount ≥ 1`:
the contiguous partition computed by `divide_list` (shard `i` gets
`N / shardCount` items plus one extra if `i < N % shardCount`, starting at
offset `i * (N / shardCount) + min i (N % shardCount)`) covers the list
exactly once — concatenating the shards in shard order reproduces the
original list — and the interleaved partition `items[shardIndex::shardCount]`
used by `index_from_cosmos` yields shards whose concatenation is a
permutation of the original list (pairwise-disjoint shards whose union is
the original multiset). -/
theorem C5_partition_coverage (items : List α) (k : Nat) (hk : 1 ≤ k) :
    ((List.range k).map (divide_list items k)).flatten = items ∧
    ((List.range k).map (fun i => sliceStep items i k)).flatten.Perm items := by
  constructor
  · have hseg : (List.range k).map (divide_list items k) =
        (List.range k).map (fun i =>
          (items.drop (shardOffset items.length k i)).take
            (shardOffset items.length k (i + 1) - shardOffset items.length k i)) := by
      apply List.map_congr_left
      intro i hi
      exact divide_list_eq_segment items k i hk (List.mem_range.mp hi)
    rw [hseg]
    exact flatten_segments k items (shardOffset items.length k)
      (shardOffset_zero items.length k)
      (shardOffset_le_succ items.length k)
      (le_of_eq (shardOffset_top items.length k hk).symm)
  · obtain ⟨m, rfl⟩ : ∃ m, k = m + 1 := ⟨k - 1, by omega⟩
    have hs : (List.range (m + 1)).map (fun i => sliceStep items i (m + 1)) =
        (List.range (m + 1)).map (fun i => sliceStepAux m (items.drop i)) := by
      apply List.map_congr_left
      intro i _
      simp [sliceStep]
    rw [hs]
    exact flatten_sliceStep_perm m items

/-- Witness for C5 at a concrete input: ten items over three shards. -/
theorem C5_partition_coverage_witness :
    1 ≤ 3 ∧
      (((List.range 3).map (divide_list [10, 11, 12, 13, 14, 15, 16, 17, 18, 19] 3)).flatten =
          [10, 11, 12, 13, 14, 15, 16, 17, 18, 19] ∧
        ((List.range 3).map
            (fun i => sliceStep [10, 11, 12, 13, 14, 15, 16, 17, 18, 19] i 3)).flatten.Perm
          [10, 11, 12, 13, 14, 15, 16, 17, 18, 19]) :=
  ⟨by norm_num, C5_partition_coverage [10, 11, 12, 13, 14, 15, 16, 17, 18, 19] 3 (by norm_num)⟩

/-! ### C6 support -/

theorem dropWhile_replicate_pos (p : Char → Bool) (c : Char) (h : p c = true) :
    ∀ n, List.dropWhile p (List.replicate n c) = [] := by
  intro n
  induction n with
  | zero => simp
  | succ m ih => simp [List.replicate_succ, List.dropWhile_cons, h, ih]

theorem dropWhile_replicate_neg (p : Char → Bool) (c : Char) (h : p c = false) :
    ∀ n, List.dropWhile p (List.replicate n c) = List.replicate n c := by
  intro n
  cases n with
  | zero => simp
  | succ m => simp [List.replicate_succ, List.dropWhile_cons, h]

theorem pyStrip_replicate_space (n : Nat) : pyStrip (List.replicate n ' ') = [] := by
  unfold pyStrip
  rw [dropWhile_replicate_pos pyIsSpace ' ' (by decide) n]
  simp

theorem pyStrip_replicate_a (n : Nat) :
    pyStrip (List.replicate n 'a') = List.replicate n 'a' := by
  unfold pyStrip
  rw [dropWhile_replicate_neg pyIsSpace 'a' (by decide) n, List.reverse_replicate,
    dropWhile_replicate_neg pyIsSpace 'a' (by decide) n, List.reverse_replicate]

/-- **C6.** The extraction quality gate accepts exactly the texts whose
trimmed length is at least `OCR_MIN_TEXT_LENGTH = 1000` and whose confidence
is at least `OCR_MIN_CONFIDENCE = 0.40`; in particular it rejects `"short"`
at confidence 0.9, rejects 1500 spaces at confidence 0.1, and accepts 1200
non-whitespace characters at confidence 0.5. -/
theorem C6_quality_gate_boundary :
    (∀ (text : PyStr) (confidence : ℚ),
      validate_ocr_results text confidence = true ↔
        OCR_MIN_TEXT_LENGTH ≤ (pyStrip text).length ∧ OCR_MIN_CONFIDENCE ≤ confidence) ∧
    validate_ocr_results (pyStr "short") (9 / 10) = false ∧
    validate_ocr_results (List.replicate 1500 ' ') (1 / 10) = false ∧
    validate_ocr_results (List.replicate 1200 'a') (1 / 2) = true := by
  have hiff : ∀ (text : PyStr) (confidence : ℚ),
      validate_ocr_results text confidence = true ↔
        OCR_MIN_TEXT_LENGTH ≤ (pyStrip text).length ∧ OCR_MIN_CONFIDENCE ≤ confidence := by
    intro text confidence
    unfold validate_ocr_results
    split_ifs with h1 h2 h3
    · simp only [Bool.false_eq_true, false_iff]
      intro hc
      omega
    · simp only [Bool.false_eq_true, false_iff]
      intro hc
      exact absurd hc.2 (not_le.mpr h2)
    · exact absurd (List.length_eq_zero.mpr h3) (by unfold OCR_MIN_TEXT_LENGTH at h1; omega)
    · simp only [true_iff]
      exact ⟨le_of_not_lt h1, le_of_not_lt h2⟩
  refine ⟨hiff, ?_, ?_, ?_⟩
  · decide
  · have := hiff (List.replicate 1500 ' ') (1 / 10)
    rw [pyStrip_replicate_space] at this
    simp only [List.length_nil] at this
    rcases h : validate_ocr_results (List.replicate 1500 ' ') (1 / 10) with _ | _
    · rfl
    · exact absurd ((this.mp h).1) (by unfold OCR_MIN_TEXT_LENGTH; omega)
  · rw [hiff, pyStrip_replicate_a, List.length_replicate]
    refine ⟨by unfold OCR_MIN_TEXT_LENGTH; omega, ?_⟩
    unfold OCR_MIN_CONFIDENCE
    norm_num

/-! ## Retry machinery (src/utils/retry.py, src/processors/metadata_extractor.py,
src/storage/search_indexer.py)

External calls are modelled by an oracle `outcomes : Nat → Except E A`
giving the outcome of the `k`-th attempt (0-indexed).  A trace records the
returned value (`Except.error` meaning the Python function re-raised), the
number of attempts performed, and the sequence of back-off delays slept. -/

/-- Result of running a retrying call. -/
structure CallTrace (E A : Type) where
  result : Except E A
  attempts : Nat
  delays : List ℚ

/-- The common attempt loop: run attempt `attempt`; on failure, if
`remaining = 0` re-raise, otherwise sleep `delay * 2 ^ attempt` and retry.
`retry_with_backoff` instantiates it with `remaining = retries` (so
`retries + 1` attempts in total); `_call_openai_with_retry` with
`remaining = MAX_RETRIES - 1` (so `MAX_RETRIES` attempts in total). -/
def backoffAttempts (outcomes : Nat → Except E A) (delay : ℚ) :
    Nat → Nat → CallTrace E A
  | attempt, 0 =>
    { result := outcomes attempt, attempts := attempt + 1, delays := [] }
  | attempt, remaining + 1 =>
    match outcomes attempt with
    | .ok a => { result := .ok a, attempts := attempt + 1, delays := [] }
    | .error _ =>
      let r := backoffAttempts outcomes delay (attempt + 1) remaining
      { r with delays := delay * 2 ^ attempt :: r.delays }

/-- `retry_with_backoff` (src/utils/retry.py, lines 12-39): the decorated
function is attempted in `for attempt in range(retries + 1)`; a failure on
the last attempt is re-raised; otherwise the caller sleeps
`delay * 2 ** attempt` (the rate-limit branch logs differently but sleeps
the same amount). -/
def retry_with_backoff_run (outcomes : Nat → Except E A) (retries : Nat)
    (delay : ℚ) : CallTrace E A :=
  backoffAttempts outcomes delay 0 retries

/-- `MetadataExtractor._call_openai_with_retry`
(src/processors/metadata_extractor.py, lines 92-115): `for attempt in
range(self.config.MAX_RETRIES)`; on failure sleep
`RETRY_DELAY * 2 ** attempt` unless it was the last attempt, which
re-raises. -/
def call_openai_with_retry_run (outcomes : Nat → Except E A) : CallTrace E A :=
  backoffAttempts outcomes RETRY_DELAY 0 (MAX_RETRIES - 1)

/-! ### Metadata dictionaries (src/processors/metadata_extractor.py)

The metadata dictionary built by `MetadataExtractor` is modelled as a
structure with one field per key that `_validate_metadata` guarantees to be
present.  String values are `Option PyStr` (`none` is Python `None`);
`processing_timestamp` (wall-clock time, irrelevant to every claim) is not
modelled. -/

structure PyMeta where
  caseName : Option PyStr
  citation : Option PyStr
  caseNumber : Option PyStr
  dateOfJudgment : Option PyStr
  bench : Option PyStr
  subjectMatter : Option PyStr
  keywords : List PyStr
  summary : Option PyStr
  petitionerAdvocates : Option PyStr
  respondentAdvocates : Option PyStr
  court : Option PyStr
  textLength : Nat
  errorMsg : Option PyStr
deriving DecidableEq

/-- `MetadataExtractor._validate_metadata` (lines 137-152): ensure every
required key is present (the structure model always has them), then set
`text_length` (and the unmodelled `processing_timestamp`).  It never
rejects anything. -/
def validate_metadata (m : PyMeta) (text : PyStr) : PyMeta :=
  { m with textLength := text.length }

/-- `MetadataExtractor._create_error_metadata` (lines 172-189). -/
def create_error_metadata (text : PyStr) (e : PyStr) : PyMeta :=
  { caseName := some (pyStr "Unknown")
    citation := some (pyStr "Unknown")
    caseNumber := some (pyStr "Unknown")
    dateOfJudgment := none
    bench := none
    subjectMatter := none
    keywords := []
    summary := some (pyStr "Error extracting metadata")
    petitionerAdvocates := none
    respondentAdvocates := none
    court := none
    textLength := text.length
    errorMsg := some e }

/-- `MetadataExtractor.extract_metadata` (lines 36-90) around the retry
loop: if the retried call (or response parsing) succeeds the parsed
metadata is passed through `_validate_metadata`; any exception — including
the one re-raised after `MAX_RETRIES` failed attempts — is caught and
turned into `_create_error_metadata` (a typed failure value).  The
chat-model-configured branch is assumed (the default model name is
non-empty). -/
def extract_metadata_via_retry (outcomes : Nat → Except PyStr PyMeta)
    (text : PyStr) : PyMeta :=
  match (call_openai_with_retry_run outcomes).result with
  | .ok m => validate_metadata m text
  | .error e => create_error_metadata text e

/-! ### Search upload batch retry (src/storage/search_indexer.py, lines 279-320) -/

/-- One per-record acknowledgment in the Azure Search response. -/
structure UploadItemResult where
  status : Bool
  errorMessage : PyStr
deriving DecidableEq

/-- Outcome of one `requests.post` of the batch payload. -/
inductive PostOutcome where
  /-- 200/201/204 with a JSON body; `none` models a body missing the
  `value` key. -/
  | ok (items : Option (List UploadItemResult))
  /-- status 400/401/403: give up immediately. -/
  | badRequest
  /-- any other non-success status: retryable. -/
  | serverError
  /-- `requests.exceptions.RequestException`: retryable. -/
  | requestExc
deriving DecidableEq

/-- Counting loop over `result['value']`: an item failed if its `status`
is `False` or its `errorMessage` is non-empty. -/
def count_upload_results (items : List UploadItemResult) : Nat × Nat :=
  items.foldl
    (fun acc item =>
      if item.status = false ∨ item.errorMessage ≠ [] then (acc.1, acc.2 + 1)
      else (acc.1 + 1, acc.2))
    (0, 0)

/-- Trace of `_upload_batch`: counts returned, attempts made, delays slept. -/
structure UploadTrace where
  counts : Nat × Nat
  attempts : Nat
  delays : List ℚ

/-- The attempt loop of `SearchIndexer._upload_batch`:
`for attempt in range(self.config.MAX_RETRIES))`; a 2xx response returns
the per-item counts (or `(len(batch), 0)` when the body has no `value`);
400/401/403 returns `(0, len(batch))` at once; other statuses and request
exceptions sleep `RETRY_DELAY * 2 ** attempt` unless this was the last
attempt; falling out of the loop returns `(0, len(batch))`. -/
def uploadAttempts (outcomes : Nat → PostOutcome) (n : Nat) :
    Nat → Nat → UploadTrace
  | attempt, 0 =>
    match outcomes attempt with
    | .ok (some items) =>
      { counts := count_upload_results items, attempts := attempt + 1, delays := [] }
    | .ok none => { counts := (n, 0), attempts := attempt + 1, delays := [] }
    | .badRequest => { counts := (0, n), attempts := attempt + 1, delays := [] }
    | .serverError => { counts := (0, n), attempts := attempt + 1, delays := [] }
    | .requestExc => { counts := (0, n), attempts := attempt + 1, delays := [] }
  | attempt, remaining + 1 =>
    match outcomes attempt with
    | .ok (some items) =>
      { counts := count_upload_results items, attempts := attempt + 1, delays := [] }
    | .ok none => { counts := (n, 0), attempts := attempt + 1, delays := [] }
    | .badRequest => { counts := (0, n), attempts := attempt + 1, delays := [] }
    | _ =>
      let r := uploadAttempts outcomes n (attempt + 1) remaining
      { r with delays := RETRY_DELAY * 2 ^ attempt :: r.delays }

/-- `SearchIndexer._upload_batch` on a batch of `n` documents. -/
def upload_batch_run (outcomes : Nat → PostOutcome) (n : Nat) : UploadTrace :=
  uploadAttempts outcomes n 0 (MAX_RETRIES - 1)

/-! ### C8 support -/

theorem backoffAttempts_allfail (outcomes : Nat → Except E A) (d : ℚ) (e : E)
    (h : ∀ k, outcomes k = Except.error e) :
    ∀ remaining attempt, backoffAttempts outcomes d attempt remaining =
      { result := Except.error e, attempts := attempt + remaining + 1,
        delays := (List.range remaining).map (fun i => d * 2 ^ (attempt + i)) } := by
  intro remaining
  induction remaining with
  | zero =>
    intro attempt
    rw [backoffAttempts, h attempt]
    simp
  | succ rem ih =>
    intro attempt
    rw [backoffAttempts, h attempt]
    simp only [ih (attempt + 1), CallTrace.mk.injEq, List.range_succ_eq_map,
      List.map_cons, List.map_map, true_and]
    refine ⟨by omega, ?_⟩
    congr 1
    apply List.map_congr_left
    intro i _
    simp only [Function.comp_apply, Nat.succ_eq_add_one]
    congr 2
    omega

theorem backoffAttempts_le (outcomes : Nat → Except E A) (d : ℚ) :
    ∀ remaining attempt,
      (backoffAttempts outcomes d attempt remaining).attempts ≤ attempt + remaining + 1 := by
  intro remaining
  induction remaining with
  | zero =>
    intro attempt
    simp only [backoffAttempts]
    omega
  | succ rem ih =>
    intro attempt
    rw [backoffAttempts]
    rcases houtcome : outcomes attempt with e | a
    · dsimp only
      have := ih (attempt + 1)
      omega
    · dsimp only
      omega

theorem uploadAttempts_allfail (outcomes : Nat → PostOutcome) (n : Nat)
    (h : ∀ k, outcomes k = PostOutcome.requestExc) :
    ∀ remaining attempt, uploadAttempts outcomes n attempt remaining =
      { counts := (0, n), attempts := attempt + remaining + 1,
        delays := (List.range remaining).map (fun i => RETRY_DELAY * 2 ^ (attempt + i)) } := by
  intro remaining
  induction remaining with
  | zero =>
    intro attempt
    rw [uploadAttempts, h attempt]
    simp
  | succ rem ih =>
    intro attempt
    rw [uploadAttempts, h attempt]
    simp only [ih (attempt + 1), UploadTrace.mk.injEq, List.range_succ_eq_map,
      List.map_cons, List.map_map, true_and]
    refine ⟨by omega, ?_⟩
    congr 1
    apply List.map_congr_left
    intro i _
    simp only [Function.comp_apply, Nat.succ_eq_add_one]
    congr 2
    omega

theorem uploadAttempts_le (outcomes : Nat → PostOutcome) (n : Nat) :
    ∀ remaining attempt,
      (uploadAttempts outcomes n attempt remaining).attempts ≤ attempt + remaining + 1 := by
  intro remaining
  induction remaining with
  | zero =>
    intro attempt
    rw [uploadAttempts]
    rcases houtcome : outcomes attempt with ⟨_ | _⟩ | _ | _ | _ <;> dsimp only <;> omega
  | succ rem ih =>
    intro attempt
    rw [uploadAttempts]
    have hle := ih (attempt + 1)
    rcases houtcome : outcomes attempt with ⟨_ | _⟩ | _ | _ | _ <;> dsimp only <;> omega

/-- **C8 (counterexample).** The claim "at most `MAX_RETRIES` attempts in
total, and on exhaustion a typed failure value is surfaced instead of an
uncontrolled exception" is false for `retry_with_backoff` at its default
configuration (`retries = MAX_RETRIES = 5`, `delay = BASE_DELAY`): with
every attempt failing, it performs 6 attempts and re-raises the final
exception. -/
theorem C8_counterexample :
    (retry_with_backoff_run (fun _ => (Except.error () : Except Unit Unit))
        MAX_RETRIES BASE_DELAY).attempts = 6 ∧
    ¬ ((retry_with_backoff_run (fun _ => (Except.error () : Except Unit Unit))
        MAX_RETRIES BASE_DELAY).attempts ≤ MAX_RETRIES) ∧
    (retry_with_backoff_run (fun _ => (Except.error () : Except Unit Unit))
        MAX_RETRIES BASE_DELAY).result = Except.error () := by
  have h := backoffAttempts_allfail (fun _ => (Except.error () : Except Unit Unit))
    BASE_DELAY () (fun _ => rfl) MAX_RETRIES 0
  rw [retry_with_backoff_run, h]
  refine ⟨rfl, ?_, rfl⟩
  intro hc
  simp only [MAX_RETRIES] at hc
  omega

/-- **C8 (amended).** The two hand-written retry loops follow the spec's
policy: with every attempt failing transiently,
`_call_openai_with_retry` performs exactly `MAX_RETRIES` attempts sleeping
`RETRY_DELAY * 2 ^ attempt` between consecutive attempts, and
`extract_metadata` surfaces the error-marked metadata dictionary (a typed
failure) rather than raising; `_upload_batch` performs exactly
`MAX_RETRIES` attempts with the same delays and returns the typed failure
`(0, len(batch))`; both perform at most `MAX_RETRIES` attempts for every
outcome sequence.  The generic `retry_with_backoff` decorator instead
performs `retries + 1` attempts (sleeping `delay * 2 ^ attempt` in
between) and re-raises the last exception on exhaustion. -/
theorem C8_retry_policy :
    (∀ (E A : Type) (outcomes : Nat → Except E A) (retries : Nat) (d : ℚ) (e : E),
      (∀ k, outcomes k = Except.error e) →
      retry_with_backoff_run outcomes retries d =
        { result := Except.error e, attempts := retries + 1,
          delays := (List.range retries).map (fun i => d * 2 ^ i) }) ∧
    (∀ (outcomes : Nat → Except PyStr PyMeta) (e : PyStr) (text : PyStr),
      (∀ k, outcomes k = Except.error e) →
      call_openai_with_retry_run outcomes =
        { result := Except.error e, attempts := MAX_RETRIES,
          delays := (List.range (MAX_RETRIES - 1)).map (fun i => RETRY_DELAY * 2 ^ i) } ∧
      extract_metadata_via_retry outcomes text = create_error_metadata text e) ∧
    (∀ (outcomes : Nat → PostOutcome) (n : Nat),
      (∀ k, outcomes k = PostOutcome.requestExc) →
      upload_batch_run outcomes n =
        { counts := (0, n), attempts := MAX_RETRIES,
          delays := (List.range (MAX_RETRIES - 1)).map (fun i => RETRY_DELAY * 2 ^ i) }) ∧
    (∀ (outcomes : Nat → Except PyStr PyMeta),
      (call_openai_with_retry_run outcomes).attempts ≤ MAX_RETRIES) ∧
    (∀ (outcomes : Nat → PostOutcome) (n : Nat),
      (upload_batch_run outcomes n).attempts ≤ MAX_RETRIES) := by
  refine ⟨?_, ?_, ?_, ?_, ?_⟩
  · intro E A outcomes retries d e h
    rw [retry_with_backoff_run, backoffAttempts_allfail outcomes d e h retries 0]
    simp only [CallTrace.mk.injEq, true_and]
    refine ⟨by omega, ?_⟩
    apply List.map_congr_left
    intro i _
    norm_num
  · intro outcomes e text h
    have hrun : call_openai_with_retry_run outcomes =
        { result := Except.error e, attempts := MAX_RETRIES,
          delays := (List.range (MAX_RETRIES - 1)).map (fun i => RETRY_DELAY * 2 ^ i) } := by
      rw [call_openai_with_retry_run,
        backoffAttempts_allfail outcomes RETRY_DELAY e h (MAX_RETRIES - 1) 0]
      simp only [CallTrace.mk.injEq, true_and]
      refine ⟨by simp [MAX_RETRIES], ?_⟩
      apply List.map_congr_left
      intro i _
      norm_num
    refine ⟨hrun, ?_⟩
    rw [extract_metadata_via_retry, hrun]
  · intro outcomes n h
    rw [upload_batch_run, uploadAttempts_allfail outcomes n h (MAX_RETRIES - 1) 0]
    simp only [UploadTrace.mk.injEq, true_and]
    refine ⟨by simp [MAX_RETRIES], ?_⟩
    apply List.map_congr_left
    intro i _
    norm_num
  · intro outcomes
    have := backoffAttempts_le outcomes RETRY_DELAY (MAX_RETRIES - 1) 0
    rw [call_openai_with_retry_run]
    simp only [MAX_RETRIES] at *
    omega
  · intro outcomes n
    have := uploadAttempts_le outcomes n (MAX_RETRIES - 1) 0
    rw [upload_batch_run]
    simp only [MAX_RETRIES] at *
    omega

/-- Witness for C8 (amended) at concrete inputs: a decorator run with
`retries = 2`, `delay = 3` and always-failing attempts, and an upload
batch of 7 documents with every post raising. -/
theorem C8_retry_policy_witness :
    (retry_with_backoff_run (fun _ => (Except.error [] : Except PyStr PyMeta)) 2 3).attempts = 3 ∧
    (retry_with_backoff_run (fun _ => (Except.error [] : Except PyStr PyMeta)) 2 3).delays = [3, 6] ∧
    (upload_batch_run (fun _ => PostOutcome.requestExc) 7).counts = (0, 7) ∧
    (upload_batch_run (fun _ => PostOutcome.requestExc) 7).attempts = 5 := by
  have h1 := C8_retry_policy.1 PyStr PyMeta (fun _ => Except.error []) 2 3 [] (fun _ => rfl)
  have h3 := C8_retry_policy.2.2.1 (fun _ => PostOutcome.requestExc) 7 (fun _ => rfl)
  rw [h1, h3]
  refine ⟨rfl, ?_, rfl, rfl⟩
  norm_num [List.range_succ]

/-! ## Chunker (src/processors/document_chunker.py) -/

/-- `Config.CHUNK_SIZE` (src/config/config.py). -/
def CHUNK_SIZE : Nat := 2500

/-- `Config.CHUNK_OVERLAP` (src/config/config.py). -/
def CHUNK_OVERLAP : Nat := 200

/-- A word character for `re.sub(r'[^\w\-]', '_', ...)`; `\w` is modelled
as ASCII alphanumeric or underscore. -/
def isWordChar (c : Char) : Bool := c.isAlphanum || c = '_'

/-- The sanitization `re.sub(r'[^\w\-]', '_', identifier)` in
`DocumentChunker._get_identifier`. -/
def sanitizeIdentifier (s : PyStr) : PyStr :=
  s.map (fun c => if isWordChar c || c = '-' then c else '_')

/-- Python truthiness test `identifier in [None, "", "Unknown"]`. -/
def isBadIdentifier (v : Option PyStr) : Bool :=
  v = none || v = some [] || v = some (pyStr "Unknown")

/-- `DocumentChunker._get_identifier` (lines 70-80): prefer the
`Case Number` value, then `Case Name`, then a truthy `blob_name`; sanitize
the result.  Returns `none` exactly when Python would reach `re.sub` with
`identifier = None` and raise `TypeError`. -/
def getIdentifier (metadata : PyMeta) (blob_name : PyStr) : Option PyStr :=
  let id0 := metadata.caseNumber
  let id1 := if isBadIdentifier id0 then metadata.caseName else id0
  let id2 := if isBadIdentifier id1 && blob_name ≠ [] then some blob_name else id1
  match id2 with
  | none => none
  | some s => some (sanitizeIdentifier s)

/-- UTF-8 encoding of one code point (`str.encode('utf-8')`), as byte
values. -/
def utf8Char (c : Char) : List Nat :=
  let n := c.toNat
  if n < 128 then [n]
  else if n < 2048 then [192 + n / 64, 128 + n % 64]
  else if n < 65536 then [224 + n / 4096, 128 + n / 64 % 64, 128 + n % 64]
  else [240 + n / 262144, 128 + n / 4096 % 64, 128 + n / 64 % 64, 128 + n % 64]

/-- `s.encode('utf-8')` as a byte list. -/
def utf8Encode (s : PyStr) : List Nat := (s.map utf8Char).flatten

/-- The URL-safe base64 alphabet (`base64.urlsafe_b64encode`). -/
def b64Alphabet : PyStr :=
  pyStr "ABCDEFGHIJKLMNOPQRSTUVWXYZabcdefghijklmnopqrstuvwxyz0123456789-_"

/-- Digit of the URL-safe base64 alphabet. -/
def b64Char (i : Nat) : Char := b64Alphabet.getD i 'A'

/-- `base64.urlsafe_b64encode` on a byte list, decoded back to a string. -/
def b64UrlEncode : List Nat → PyStr
  | [] => []
  | [b1] => [b64Char (b1 / 4), b64Char (b1 % 4 * 16), '=', '=']
  | [b1, b2] => [b64Char (b1 / 4), b64Char (b1 % 4 * 16 + b2 / 16), b64Char (b2 % 16 * 4), '=']
  | b1 :: b2 :: b3 :: rest =>
    b64Char (b1 / 4) :: b64Char (b1 % 4 * 16 + b2 / 16) ::
      b64Char (b2 % 16 * 4 + b3 / 64) :: b64Char (b3 % 64) :: b64UrlEncode rest

/-- The deterministic chunk-identity encoding of `(documentId, ordinal)`:
`base64.urlsafe_b64encode(f"{identifier}_chunk_{i}".encode('utf-8'))`
(src/processors/document_chunker.py, lines 54-55). -/
def deterministicEncode (documentId : PyStr) (i : Nat) : PyStr :=
  b64UrlEncode (utf8Encode (documentId ++ pyStr "_chunk_" ++ Nat.toDigits 10 i))

/-- Modelled from the spec: the text-splitting routine is the external
library `langchain_text_splitters.RecursiveCharacterTextSplitter`
(`split_text`), which is not part of this repository.  Following §4.2 it
is modelled as a deterministic pure function of `(text, chunkSize,
chunkOverlap)`: windows of at most `chunkSize` characters, each
overlapping the previous one by `chunkOverlap` characters (the
separator-preference refinement only moves boundaries and does not affect
any claim; the model keeps determinism and the size bound). -/
def rctsSplitAux (chunkSize chunkOverlap : Nat) : Nat → PyStr → List PyStr
  | 0, text => [text]
  | fuel + 1, text =>
    if chunkSize ≤ chunkOverlap ∨ text.length ≤ chunkSize then [text]
    else
      text.take chunkSize ::
        rctsSplitAux chunkSize chunkOverlap fuel (text.drop (chunkSize - chunkOverlap))

/-- Entry point of the modelled splitter.  The fuel argument
`text.length` is an upper bound on the number of windows (each recursion
consumes at least one character), so it never cuts the recursion short. -/
def rcts_split (chunkSize chunkOverlap : Nat) (text : PyStr) : List PyStr :=
  rctsSplitAux chunkSize chunkOverlap text.length text

/-- Metadata attached to one chunk (`metadata.copy()` plus the `chunk_id`,
`chunk_total` and `document_id` keys). -/
structure ChunkMeta where
  base : PyMeta
  chunk_id : Nat
  chunk_total : Nat
  document_id : PyStr
deriving DecidableEq

/-- One chunk dictionary produced by `chunk_document`; `vector` is the
`"vector"` key later added by the embedding generator (`none` while the
key is absent). -/
structure ChunkRecord where
  id : PyStr
  text : PyStr
  metadata : ChunkMeta
  vector : Option (List ℚ)
deriving DecidableEq

/-- `DocumentChunker.chunk_document(text, metadata, blob_name)`
(lines 32-68), parameterized by the injected splitter
(`self.text_splitter.split_text`).  Returns `Except.error` exactly when
`_get_identifier` would raise (`re.sub` applied to `None`). -/
def chunk_document (split_text : PyStr → List PyStr) (text : PyStr)
    (metadata : PyMeta) (blob_name : PyStr) : Except PyStr (List ChunkRecord) :=
  if text = [] then .ok []
  else
    match getIdentifier metadata blob_name with
    | none => .error (pyStr "TypeError")
    | some identifier =>
      let chunks := split_text text
      .ok (chunks.enum.map (fun p =>
        { id := deterministicEncode identifier p.1
          text := p.2
          metadata :=
            { base := metadata
              chunk_id := p.1
              chunk_total := chunks.length
              document_id := identifier }
          vector := none }))

/-- One document dictionary flowing between pipeline stages
(`{"blob_name": ..., "success": ..., "metadata": ..., "text": ...}`). -/
structure PipelineDoc where
  blob_name : PyStr
  success : Bool
  metadata : PyMeta
  text : PyStr
deriving DecidableEq

/-- `DocumentChunker.chunk_batch(documents)` (lines 82-118): submit each
document with truthy `success`, `text` and `metadata` (the metadata
dictionary modelled here is never empty, hence always truthy), collect the
chunks, and drop a document whose chunking raised.  The thread pool is
modelled sequentially; every claim using `chunk_batch` passes a single
document, so completion order is immaterial. -/
def chunk_batch (split_text : PyStr → List PyStr) (documents : List PipelineDoc) :
    List ChunkRecord :=
  (documents.map (fun doc =>
    if doc.success && doc.text ≠ [] then
      match chunk_document split_text doc.text doc.metadata doc.blob_name with
      | .ok cs => cs
      | .error _ => []
    else [])).flatten

/-- **C4.** Chunking is deterministic and chunk identity depends only on
document identity and ordinal: for every splitter configuration (any pure
`split_text` function, covering every chunk size, overlap and separator
list), text, metadata and blob name, re-running `chunk_document` on the
same inputs yields the identical chunk list, and whenever chunking
succeeds with document identifier `ident`, the `i`-th emitted chunk has
id `deterministicEncode ident i`, ordinal `i`, total equal to the number
of chunks, and text equal to the `i`-th split of the text. -/
theorem C4_chunk_determinism (split_text : PyStr → List PyStr) (text : PyStr)
    (metadata : PyMeta) (blob_name : PyStr) :
    chunk_document split_text text metadata blob_name =
      chunk_document split_text text metadata blob_name ∧
    ∀ ident, getIdentifier metadata blob_name = some ident →
      ∀ cs, chunk_document split_text text metadata blob_name = Except.ok cs →
        ∀ i, ∀ h : i < cs.length,
          (cs.get ⟨i, h⟩).id = deterministicEncode ident i ∧
          (cs.get ⟨i, h⟩).metadata.chunk_id = i ∧
          (cs.get ⟨i, h⟩).metadata.chunk_total = cs.length ∧
          (cs.get ⟨i, h⟩).metadata.document_id = ident ∧
          (cs.get ⟨i, h⟩).text = (split_text text).getD i [] := by
  refine ⟨rfl, ?_⟩
  intro ident hident cs hcs i h
  by_cases htext : text = []
  · rw [chunk_document, if_pos htext] at hcs
    cases hcs
    simp at h
  · rw [chunk_document, if_neg htext, hident] at hcs
    simp only [Except.ok.injEq] at hcs
    subst hcs
    have hi : i < (split_text text).length := by
      simpa using h
    simp [List.getD_eq_getElem _ _ hi, List.getElem?_eq_getElem hi]

/-- Witness for C4 at a concrete input: metadata whose case fields are
`"Unknown"`, blob name `"b.pdf"` (document id `"b_pdf"`), text
`"abcdefgh"` split with size 4 and overlap 1 into three chunks. -/
theorem C4_chunk_determinism_witness :
    getIdentifier (create_error_metadata [] []) (pyStr "b.pdf") = some (pyStr "b_pdf") ∧
    (((chunk_document (rcts_split 4 1) (pyStr "abcdefgh") (create_error_metadata [] [])
          (pyStr "b.pdf")).toOption.getD []).get ⟨2, by decide⟩).id =
      deterministicEncode (pyStr "b_pdf") 2 ∧
    (((chunk_document (rcts_split 4 1) (pyStr "abcdefgh") (create_error_metadata [] [])
          (pyStr "b.pdf")).toOption.getD []).get ⟨2, by decide⟩).text =
      (rcts_split 4 1 (pyStr "abcdefgh")).getD 2 [] := by
  have h := (C4_chunk_determinism (rcts_split 4 1) (pyStr "abcdefgh")
    (create_error_metadata [] []) (pyStr "b.pdf")).2 (pyStr "b_pdf") (by decide)
    ((chunk_document (rcts_split 4 1) (pyStr "abcdefgh") (create_error_metadata [] [])
      (pyStr "b.pdf")).toOption.getD []) (by rfl) 2 (by decide)
  exact ⟨by decide, h.1, h.2.2.2.2⟩

/-! ## Text extraction (src/processors/text_extractor.py) -/

/-- Behavior of one PDF file on disk: opening it either raises
(`Except.error`) or yields a list of pages, each of which yields text or
raises when read. -/
abbrev PdfBehavior := Except PyStr (List (Except PyStr PyStr))

/-- The page loop of `TextExtractor.extract_text` (lines 35-48): each
successfully read page appends its text plus `"\n\n"`; a page whose read
raises is logged and skipped. -/
def pageConcat (pages : List (Except PyStr PyStr)) : PyStr :=
  (pages.map (fun p =>
    match p with
    | .ok t => t ++ pyStr "\n\n"
    | .error _ => [])).flatten

/-- `TextExtractor.extract_text(pdf_path)` (lines 24-57): never raises; the
whitespace-only outcome is replaced by one fixed sentence and an open/read
failure by another. -/
def extract_text (pdf : PdfBehavior) : PyStr :=
  match pdf with
  | .error _ => pyStr "Error extracting text from document."
  | .ok pages =>
    let full_text := pageConcat pages
    if pyStrip full_text = [] then
      pyStr "No text content could be extracted from this document."
    else full_text

/-- `TextExtractor.extract_batch(local_paths_dict)` (lines 59-88): map each
blob name to the extracted text of its file.  `extract_text` is total, so
the `future.result()` exception branch (which would store `None`) is
unreachable; the thread pool is modelled as an order-preserving map since
results are keyed by blob name. -/
def extract_batch (local_paths : List (PyStr × PdfBehavior)) : List (PyStr × PyStr) :=
  local_paths.map (fun p => (p.1, extract_text p.2))

/-- `extract_text` never returns the empty string. -/
theorem extract_text_ne_nil (pdf : PdfBehavior) : extract_text pdf ≠ [] := by
  match pdf with
  | .error e =>
    show pyStr "Error extracting text from document." ≠ []
    decide
  | .ok pages =>
    rw [extract_text]
    split_ifs with hstrip
    · decide
    · intro hempty
      rw [hempty] at hstrip
      exact hstrip rfl

/-- **C9.** Text extraction at the public interface is total and never
signals failure: every input yields a non-empty string; an open/read
failure yields the fixed error sentence; a PDF whose pages produce only
whitespace yields the fixed no-content sentence; and `extract_batch` maps
every submitted document to such a string, preserving the blob names. -/
theorem C9_extraction_total :
    (∀ pdf : PdfBehavior, extract_text pdf ≠ []) ∧
    (∀ e : PyStr, extract_text (Except.error e) = pyStr "Error extracting text from document.") ∧
    (∀ pages : List (Except PyStr PyStr), pyStrip (pageConcat pages) = [] →
      extract_text (Except.ok pages) =
        pyStr "No text content could be extracted from this document.") ∧
    (∀ local_paths : List (PyStr × PdfBehavior),
      (extract_batch local_paths).map Prod.fst = local_paths.map Prod.fst ∧
      ∀ pr ∈ extract_batch local_paths, pr.2 ≠ []) := by
  have hne : ∀ pdf : PdfBehavior, extract_text pdf ≠ [] := extract_text_ne_nil
  refine ⟨hne, fun e => rfl, ?_, ?_⟩
  · intro pages hstrip
    rw [extract_text, if_pos hstrip]
  · intro local_paths
    constructor
    · rw [extract_batch, List.map_map]
      rfl
    · intro pr hpr
      rw [extract_batch, List.mem_map] at hpr
      obtain ⟨q, _, rfl⟩ := hpr
      exact hne q.2

/-- Witness for C9 at a concrete input: a two-page PDF where one page
raises and the other yields only whitespace, submitted in a batch. -/
theorem C9_extraction_total_witness :
    pyStrip (pageConcat [Except.ok [' ', ' '], Except.error (pyStr "bad page")]) = [] ∧
    extract_text (Except.ok [Except.ok [' ', ' '], Except.error (pyStr "bad page")]) =
      pyStr "No text content could be extracted from this document." ∧
    extract_text (Except.ok [Except.ok [' ', ' '], Except.error (pyStr "bad page")]) ≠ [] := by
  refine ⟨by decide, ?_, ?_⟩
  · exact C9_extraction_total.2.2.1 [Except.ok [' ', ' '], Except.error (pyStr "bad page")]
      (by decide)
  · exact C9_extraction_total.1 (Except.ok [Except.ok [' ', ' '], Except.error (pyStr "bad page")])

/-! ## Embedding generation (src/processors/embedding_generator.py) -/

/-- `Config.EMBEDDING_BATCH_SIZE` (src/config/config.py). -/
def EMBEDDING_BATCH_SIZE : Nat := 10

/-- Behavior of the embedding service: the outcome of a batched
`embeddings.create` call on a list of texts, and of a single-input call
(`response.data[0].embedding`; any failure, including an empty `data`,
is an `Except.error`). -/
structure EmbedEnv where
  batchCall : List PyStr → Except PyStr (List (List ℚ))
  itemCall : PyStr → Except PyStr (List ℚ)

/-- `EmbeddingGenerator._generate_individually` applied to one chunk
(lines 67-79): on failure the chunk receives an all-zero vector of length
1536. -/
def embedItemFallback (env : EmbedEnv) (c : ChunkRecord) : ChunkRecord :=
  match env.itemCall c.text with
  | .ok v => { c with vector := some v }
  | .error _ => { c with vector := some (List.replicate 1536 0) }

/-- Processing of one batch inside `generate_embeddings` (lines 42-62):
on a successful batch call, chunk `j` receives vector `data[j]` when
`j < len(data)` (`for j, embedding_data in enumerate(response.data): if j
< len(batch)`), keeping its previous state otherwise; on a failed batch
call, fall back to one call per chunk of the batch. -/
def embedBatchOne (env : EmbedEnv) (batch : List ChunkRecord) : List ChunkRecord :=
  match env.batchCall (batch.map ChunkRecord.text) with
  | .ok data =>
    batch.enum.map (fun p =>
      match data.get? p.1 with
      | some v => { p.2 with vector := some v }
      | none => p.2)
  | .error _ => batch.map (embedItemFallback env)

/-- The slices `chunks[i:i + batch_size]` of the batching loop
(`for i in range(0, total_chunks, batch_size)`), with a fuel argument
(`l.length` at the entry point) bounding the number of batches; each batch
consumes at least one element, so the fuel never cuts the loop short. -/
def toBatchesAux (bs : Nat) : Nat → List α → List (List α)
  | _, [] => []
  | 0, l => [l]
  | fuel + 1, l => l.take bs :: toBatchesAux bs fuel (l.drop bs)

/-- The batch decomposition of the chunk list. -/
def toBatches (bs : Nat) (l : List α) : List (List α) := toBatchesAux bs l.length l

/-- `EmbeddingGenerator.generate_embeddings(chunks, batch_size)`
(lines 23-65): `if not batch_size` replaces a missing (or zero) batch size
by `EMBEDDING_BATCH_SIZE`; the chunk list is processed slice by slice and
returned (the Python code mutates the chunk dictionaries in place and
returns the same list object). -/
def generate_embeddings (env : EmbedEnv) (chunks : List ChunkRecord)
    (batch_size : Option Nat) : List ChunkRecord :=
  let bs := match batch_size with
    | none => EMBEDDING_BATCH_SIZE
    | some 0 => EMBEDDING_BATCH_SIZE
    | some b => b
  ((toBatches bs chunks).map (embedBatchOne env)).flatten

/-- A chunk with its `vector` key removed (for stating that embedding
generation changes nothing but vectors). -/
def eraseVector (c : ChunkRecord) : ChunkRecord := { c with vector := none }

/-- The batch slice containing index `i`:
`chunks[bs * (i / bs) : bs * (i / bs) + bs]`. -/
def batchOf (bs : Nat) (l : List ChunkRecord) (i : Nat) : List ChunkRecord :=
  (l.drop (bs * (i / bs))).take bs

/-! ### C10 support -/

theorem toBatchesAux_fuel (bs : Nat) (hbs : 1 ≤ bs) :
    ∀ (n fuel fuel' : Nat) (l : List α), l.length ≤ n → l.length ≤ fuel →
      l.length ≤ fuel' → toBatchesAux bs fuel l = toBatchesAux bs fuel' l := by
  intro n
  induction n with
  | zero =>
    intro fuel fuel' l hn _ _
    have : l = [] := List.eq_nil_of_length_eq_zero (by omega)
    subst this
    cases fuel <;> cases fuel' <;> rfl
  | succ n ih =>
    intro fuel fuel' l hn hf hf'
    rcases l with _ | ⟨a, tl⟩
    · cases fuel <;> cases fuel' <;> rfl
    · simp only [List.length_cons] at hn hf hf'
      obtain ⟨f, rfl⟩ : ∃ f, fuel = f + 1 := ⟨fuel - 1, by omega⟩
      obtain ⟨f', rfl⟩ : ∃ f', fuel' = f' + 1 := ⟨fuel' - 1, by omega⟩
      rw [toBatchesAux, toBatchesAux]
      · congr 1
        apply ih f f' ((a :: tl).drop bs) <;>
          simp only [List.length_drop, List.length_cons] <;> omega
      · exact fun h => List.noConfusion h
      · exact fun h => List.noConfusion h

theorem toBatches_cons (bs : Nat) (hbs : 1 ≤ bs) (l : List α) (hl : l ≠ []) :
    toBatches bs l = l.take bs :: toBatches bs (l.drop bs) := by
  rcases l with _ | ⟨a, tl⟩
  · exact absurd rfl hl
  · rw [toBatches, toBatches]
    simp only [List.length_cons]
    rw [toBatchesAux]
    · congr 1
      apply toBatchesAux_fuel bs hbs tl.length
      · simp only [List.length_drop, List.length_cons]
        omega
      · simp only [List.length_drop, List.length_cons]
        omega
      · exact le_rfl
    · exact fun h => List.noConfusion h

theorem generate_embeddings_nil (env : EmbedEnv) (bsize : Option Nat) :
    generate_embeddings env [] bsize = [] := by
  rcases bsize with _ | ⟨_ | b⟩ <;> rfl

theorem generate_embeddings_cons (env : EmbedEnv) (bs : Nat) (hbs : 1 ≤ bs)
    (l : List ChunkRecord) (hl : l ≠ []) :
    generate_embeddings env l (some bs) =
      embedBatchOne env (l.take bs) ++ generate_embeddings env (l.drop bs) (some bs) := by
  obtain ⟨b, rfl⟩ : ∃ b, bs = b + 1 := ⟨bs - 1, by omega⟩
  rw [generate_embeddings, generate_embeddings]
  · rw [toBatches_cons (b + 1) (by omega) l hl, List.map_cons, List.flatten_cons]
  · omega
  · omega

theorem eraseVector_update (c : ChunkRecord) (v : Option (List ℚ)) :
    eraseVector { c with vector := v } = eraseVector c := by
  cases c
  rfl

theorem embedItemFallback_text (env : EmbedEnv) (c : ChunkRecord) :
    (embedItemFallback env c).text = c.text := by
  rw [embedItemFallback]
  rcases env.itemCall c.text with _ | v <;> rfl

theorem embedBatchOne_erase (env : EmbedEnv) (batch : List ChunkRecord) :
    (embedBatchOne env batch).map eraseVector = batch.map eraseVector := by
  rw [embedBatchOne]
  rcases henv : env.batchCall (batch.map ChunkRecord.text) with e | data
  · simp only [List.map_map]
    apply List.map_congr_left
    intro c _
    simp only [Function.comp_apply, embedItemFallback]
    rcases env.itemCall c.text with _ | v
    · exact eraseVector_update c _
    · exact eraseVector_update c _
  · simp only [List.map_map]
    have hsnd : batch.map eraseVector = batch.enum.map (eraseVector ∘ Prod.snd) := by
      rw [← List.map_map, List.enum_map_snd]
    rw [hsnd]
    apply List.map_congr_left
    intro p _
    simp only [Function.comp_apply]
    rcases data.get? p.1 with _ | v
    · rfl
    · exact eraseVector_update p.2 _

theorem embedBatchOne_length (env : EmbedEnv) (batch : List ChunkRecord) :
    (embedBatchOne env batch).length = batch.length := by
  have := congrArg List.length (embedBatchOne_erase env batch)
  simpa using this

theorem generate_embeddings_erase_bs (env : EmbedEnv) (bs : Nat) (hbs : 1 ≤ bs) :
    ∀ (n : Nat) (l : List ChunkRecord), l.length ≤ n →
      (generate_embeddings env l (some bs)).map eraseVector = l.map eraseVector := by
  intro n
  induction n with
  | zero =>
    intro l hn
    have : l = [] := List.eq_nil_of_length_eq_zero (by omega)
    subst this
    rw [generate_embeddings_nil]
  | succ n ih =>
    intro l hn
    rcases l with _ | ⟨a, tl⟩
    · rw [generate_embeddings_nil]
    · have hl : (a :: tl) ≠ [] := List.cons_ne_nil a tl
      rw [generate_embeddings_cons env bs hbs _ hl, List.map_append, embedBatchOne_erase,
        ih ((a :: tl).drop bs) (by
          simp only [List.length_drop, List.length_cons] at *
          omega),
        ← List.map_append, List.take_append_drop]

theorem generate_embeddings_fallback_bs (env : EmbedEnv) (bs : Nat) (hbs : 1 ≤ bs) :
    ∀ (n : Nat) (l : List ChunkRecord), l.length ≤ n →
      ∀ (i : Nat) (err : PyStr) (c : ChunkRecord),
        env.batchCall ((batchOf bs l i).map ChunkRecord.text) = Except.error err →
        (generate_embeddings env l (some bs))[i]? = some c →
        c.vector = (match env.itemCall c.text with
          | .ok v => some v
          | .error _ => some (List.replicate 1536 0)) := by
  intro n
  induction n with
  | zero =>
    intro l hn i err c _ hget
    have : l = [] := List.eq_nil_of_length_eq_zero (by omega)
    subst this
    rw [generate_embeddings_nil] at hget
    simp at hget
  | succ n ih =>
    intro l hn i err c hbatch hget
    rcases l with _ | ⟨a, tl⟩
    · rw [generate_embeddings_nil] at hget
      simp at hget
    · have hl : (a :: tl) ≠ [] := List.cons_ne_nil a tl
      rw [generate_embeddings_cons env bs hbs _ hl] at hget
      have hFlen : (embedBatchOne env ((a :: tl).take bs)).length =
          ((a :: tl).take bs).length := embedBatchOne_length env _
      by_cases hi : i < (embedBatchOne env ((a :: tl).take bs)).length
      · rw [List.getElem?_append_left hi] at hget
        have hibs : i < bs := by
          rw [hFlen] at hi
          simp only [List.length_take] at hi
          omega
        have hdiv : i / bs = 0 := Nat.div_eq_of_lt hibs
        have hbatchOf : batchOf bs (a :: tl) i = (a :: tl).take bs := by
          rw [batchOf, hdiv]
          simp
        rw [hbatchOf] at hbatch
        have hF : embedBatchOne env ((a :: tl).take bs) =
            ((a :: tl).take bs).map (embedItemFallback env) := by
          rw [embedBatchOne, hbatch]
        rw [hF, List.getElem?_map] at hget
        rcases he : ((a :: tl).take bs)[i]? with _ | e
        · rw [he] at hget
          simp at hget
        · rw [he] at hget
          simp only [Option.map_some', Option.some.injEq] at hget
          rw [← hget, embedItemFallback_text, embedItemFallback]
          rcases hcall : env.itemCall e.text with msg | v
          · rfl
          · rfl
      · push_neg at hi
        rw [List.getElem?_append_right hi] at hget
        by_cases hlen : (a :: tl).length ≤ bs
        · have hdrop : (a :: tl).drop bs = [] := List.drop_eq_nil_of_le hlen
          rw [hdrop, generate_embeddings_nil] at hget
          simp at hget
        · push_neg at hlen
          have hFbs : (embedBatchOne env ((a :: tl).take bs)).length = bs := by
            rw [hFlen]
            simp only [List.length_take]
            omega
          rw [hFbs] at hget hi
          have hidx : bs + bs * ((i - bs) / bs) = bs * (i / bs) := by
            obtain ⟨j, rfl⟩ : ∃ j, i = j + bs := ⟨i - bs, by omega⟩
            rw [Nat.add_div_right _ (by omega : 0 < bs), Nat.add_sub_cancel]
            ring
          rw [batchOf] at hbatch
          have hbatch2 : env.batchCall
              ((batchOf bs ((a :: tl).drop bs) (i - bs)).map ChunkRecord.text) =
              Except.error err := by
            rw [batchOf, List.drop_drop, hidx]
            exact hbatch
          exact ih ((a :: tl).drop bs) (by
            simp only [List.length_drop, List.length_cons] at *
            omega) (i - bs) err c hbatch2 hget

/-- **C10.** `generate_embeddings` returns the same chunk list it was
given — unchanged except for the `vector` key, hence unchanged in length
and order — and it never raises (it is a total function of the service
behavior): when the batch call for the batch containing a chunk fails, the
chunk is embedded by an individual call, and when that also fails the
chunk is assigned an all-zero vector of length 1536 instead of being
dropped. -/
theorem C10_embedding_containment :
    (∀ (env : EmbedEnv) (chunks : List ChunkRecord) (batch_size : Option Nat),
      (generate_embeddings env chunks batch_size).map eraseVector =
        chunks.map eraseVector) ∧
    (∀ (env : EmbedEnv) (chunks : List ChunkRecord) (batch_size : Option Nat),
      (generate_embeddings env chunks batch_size).length = chunks.length) ∧
    (∀ (env : EmbedEnv) (chunks : List ChunkRecord) (bs : Nat), 1 ≤ bs →
      ∀ (i : Nat) (err : PyStr) (c : ChunkRecord),
        env.batchCall ((batchOf bs chunks i).map ChunkRecord.text) = Except.error err →
        (generate_embeddings env chunks (some bs))[i]? = some c →
        c.vector = (match env.itemCall c.text with
          | .ok v => some v
          | .error _ => some (List.replicate 1536 0))) := by
  have herase : ∀ (env : EmbedEnv) (chunks : List ChunkRecord) (batch_size : Option Nat),
      (generate_embeddings env chunks batch_size).map eraseVector =
        chunks.map eraseVector := by
    intro env chunks bsize
    rcases bsize with _ | ⟨_ | b⟩
    · exact generate_embeddings_erase_bs env EMBEDDING_BATCH_SIZE (by decide)
        chunks.length chunks le_rfl
    · exact generate_embeddings_erase_bs env EMBEDDING_BATCH_SIZE (by decide)
        chunks.length chunks le_rfl
    · exact generate_embeddings_erase_bs env (b + 1) (by omega) chunks.length chunks le_rfl
  refine ⟨herase, ?_, ?_⟩
  · intro env chunks bsize
    have := congrArg List.length (herase env chunks bsize)
    simpa using this
  · intro env chunks bs hbs i err c hbatch hget
    exact generate_embeddings_fallback_bs env bs hbs chunks.length chunks le_rfl
      i err c hbatch hget

/-- A concrete chunk for witnesses. -/
def sampleChunk : ChunkRecord :=
  { id := pyStr "id0"
    text := pyStr "some text"
    metadata :=
      { base := create_error_metadata [] []
        chunk_id := 0
        chunk_total := 1
        document_id := pyStr "d" }
    vector := none }

/-- Witness for C10 at a concrete input: one chunk, batch size 1, both the
batch call and the individual call failing; the returned chunk carries the
1536-dimensional zero vector. -/
theorem C10_embedding_containment_witness :
    (generate_embeddings ⟨fun _ => Except.error [], fun _ => Except.error []⟩
        [sampleChunk] (some 1))[0]? =
      some (embedItemFallback ⟨fun _ => Except.error [], fun _ => Except.error []⟩
        sampleChunk) ∧
    (embedItemFallback ⟨fun _ => Except.error [], fun _ => Except.error []⟩
        sampleChunk).vector = some (List.replicate 1536 0) := by
  have h := C10_embedding_containment.2.2
    ⟨fun _ => Except.error [], fun _ => Except.error []⟩ [sampleChunk] 1 (by omega)
    0 [] (embedItemFallback ⟨fun _ => Except.error [], fun _ => Except.error []⟩ sampleChunk)
    rfl rfl
  exact ⟨rfl, h⟩

/-! ## Metadata validity gate (src/models/document.py) -/

/-- The `DocumentMetadata` dataclass (src/models/document.py, lines 25-63);
string fields default to `""`. -/
structure DocumentMetadata where
  case_name : PyStr := []
  case_number : PyStr := []
  citation : PyStr := []
  date_of_judgment : PyStr := []
  bench : PyStr := []
  court : PyStr := []
  summary : PyStr := []
  keywords : List PyStr := []
  petitioner_advocates : List PyStr := []
  respondent_advocates : List PyStr := []
deriving DecidableEq

/-- Numeric value of a digit string. -/
def digitsToNat (s : PyStr) : Nat :=
  s.foldl (fun a c => a * 10 + (c.toNat - 48)) 0

/-- Gregorian leap year, as `datetime` implements it. -/
def isLeapYear (y : Nat) : Bool :=
  y % 4 = 0 && (y % 100 ≠ 0 || y % 400 = 0)

/-- Days in a month, as `datetime` validates them. -/
def daysInMonth (y m : Nat) : Nat :=
  if m = 2 then (if isLeapYear y then 29 else 28)
  else if m = 4 || m = 6 || m = 9 || m = 11 then 30
  else 31

/-- `datetime.strptime(date_str, "%Y-%m-%d")` succeeding: `%Y` matches
exactly four digits, `%m` and `%d` one or two digits whose values are a
valid calendar month and day (`datetime` rejects year 0 and impossible
days), with nothing left over.  Digits are modelled as ASCII digits. -/
def strptimeYMD (s : PyStr) : Bool :=
  let y := s.takeWhile Char.isDigit
  match s.dropWhile Char.isDigit with
  | c1 :: rest2 =>
    if c1 = '-' then
      let mo := rest2.takeWhile Char.isDigit
      match rest2.dropWhile Char.isDigit with
      | c2 :: rest4 =>
        if c2 = '-' then
          let d := rest4.takeWhile Char.isDigit
          rest4.dropWhile Char.isDigit = [] &&
            y.length = 4 && 1 ≤ digitsToNat y &&
            1 ≤ mo.length && mo.length ≤ 2 &&
            1 ≤ digitsToNat mo && digitsToNat mo ≤ 12 &&
            1 ≤ d.length && d.length ≤ 2 &&
            1 ≤ digitsToNat d && digitsToNat d ≤ daysInMonth (digitsToNat y) (digitsToNat mo)
        else false
      | [] => false
    else false
  | [] => false

/-- `DocumentMetadata._is_valid_date` (lines 55-63): empty strings fail,
otherwise `strptime(date_str, "%Y-%m-%d")` must succeed. -/
def is_valid_date (date_str : PyStr) : Bool :=
  if date_str = [] then false else strptimeYMD date_str

/-- `DocumentMetadata.is_valid` (lines 47-53): (case name or case number
non-blank) and court non-blank and the judgment date parses. -/
def metadata_is_valid (m : DocumentMetadata) : Bool :=
  (pyStrip m.case_name ≠ [] || pyStrip m.case_number ≠ []) &&
    pyStrip m.court ≠ [] && is_valid_date m.date_of_judgment

/-- The gate-relevant view of a pipeline metadata dictionary as the
`DocumentMetadata` dataclass (Python `None` becomes the dataclass default
`""`; the advocate lists are irrelevant to the gate). -/
def gateView (m : PyMeta) : DocumentMetadata :=
  { case_name := m.caseName.getD []
    case_number := m.caseNumber.getD []
    citation := m.citation.getD []
    date_of_judgment := m.dateOfJudgment.getD []
    bench := m.bench.getD []
    court := m.court.getD []
    summary := m.summary.getD []
    keywords := m.keywords }

/-! ## Pipeline orchestration (src/pipeline/pdf_processor.py,
src/storage/cosmos_storage.py, src/storage/search_indexer.py) -/

/-- Final outcome of one metadata inference for a document's text: the
parsed metadata, or the exception that `extract_metadata`'s `try` catches
(from the exhausted retry loop or from response parsing). -/
inductive InferOutcome where
  | ok (m : PyMeta)
  | raise (e : PyStr)

/-- `MetadataExtractor.extract_metadata` (lines 36-90) at call
granularity: success passes through `_validate_metadata`; any exception
becomes `_create_error_metadata`. -/
def extract_metadata_outcome (outcome : InferOutcome) (text : PyStr) : PyMeta :=
  match outcome with
  | .ok m => validate_metadata m text
  | .raise e => create_error_metadata text e

/-- `MetadataExtractor.extract_batch(texts_dict)` (lines 191-227): only
truthy texts are submitted (`if text:`); `extract_metadata` is total, so
the `future.result()` exception branch is unreachable; results are keyed
by blob name (completion order not modelled). -/
def metadata_extract_batch (infer : PyStr → InferOutcome)
    (texts : List (PyStr × PyStr)) : List (PyStr × PyMeta) :=
  (texts.filter (fun p => p.2 ≠ [])).map
    (fun p => (p.1, extract_metadata_outcome (infer p.2) p.2))

/-- A document record as stored in Cosmos DB, as far as the repair path
reads it (`existing_doc.get("metadata", {})`, `.get("text_sample", "")`). -/
structure StoredDoc where
  metadata : PyMeta
  text_sample : PyStr

/-- Behavior of every external collaborator of `PDFProcessor`, as one
oracle record: outcomes of blob downloads, PDF reads, metadata inference,
Cosmos writes and reads, embedding calls, search uploads and queries, and
the temporary-file cleanup.  `Except.error` everywhere models a raised
exception. -/
structure PipelineEnv where
  /-- `PDFDownloader.download_batch([blob_url])`: blob name to local path,
  empty on failure; an `Except.error` is a raised exception. -/
  download : PyStr → Except PyStr (List (PyStr × PyStr))
  /-- Behavior of the PDF at each local path for `TextExtractor`. -/
  pdfOf : PyStr → PdfBehavior
  /-- Final metadata-inference outcome for each text. -/
  infer : PyStr → InferOutcome
  /-- `CosmosStorage.store_document(blob_name, metadata, text_sample)`. -/
  storeOk : PyStr → PyMeta → PyStr → Bool
  /-- The embedding service (see `EmbedEnv`). -/
  embed : EmbedEnv
  /-- `SearchIndexer.upload_chunks(chunks)`: aggregate
  `(succeeded, failed)`. -/
  upload : List ChunkRecord → Nat × Nat
  /-- `RecursiveCharacterTextSplitter.split_text` as configured. -/
  split : PyStr → List PyStr
  /-- Blob names with a stored metadata record in Cosmos DB. -/
  cosmosStore : List PyStr
  /-- Sanitized document identifiers with at least one indexed chunk. -/
  searchIndexIds : List PyStr
  /-- Whether the batched index query raises (the caller falls back to an
  empty indexed set, src/pipeline/pdf_processor.py lines 134-139). -/
  indexBatchRaises : Bool
  /-- Modelled from the spec: `getByLocator(locator) -> document | absent`
  (§6 MetadataStore); the method `get_document_by_blob_name` called at
  src/pipeline/pdf_processor.py line 153 is absent from the repository's
  files.  `Except.error` is a raised exception. -/
  getDoc : PyStr → Except PyStr (Option StoredDoc)
  /-- Whether `os.remove` of a local path raises during the metadata-mode
  cleanup (src/pipeline/pdf_processor.py lines 213-215). -/
  cleanupRaises : PyStr → Bool

/-- `CosmosStorage.documents_exist_batch(blob_names)`
(src/storage/cosmos_storage.py, lines 28-54): one `IN`-clause query over
the **first 100** blob names (`blob_names[:100]  # Limit to 100`),
returning those that exist. -/
def documents_exist_batch (store : List PyStr) (blob_names : List PyStr) : List PyStr :=
  (blob_names.take 100).filter (fun b => decide (b ∈ store))

/-- `CosmosStorage.document_exists(blob_name)` (lines 56-67): a singleton
batch query. -/
def document_exists (store : List PyStr) (b : PyStr) : Bool :=
  decide (b ∈ documents_exist_batch store [b])

/-- `SearchIndexer.is_document_indexed(blob_name)`
(src/storage/search_indexer.py, lines 322-341): sanitize the blob name and
ask for one chunk with that `pdf_id`. -/
def is_document_indexed (ids : List PyStr) (b : PyStr) : Bool :=
  decide (sanitizeIdentifier b ∈ ids)

/-- Modelled from the spec: `isIndexedBatch(documentIds) -> set of indexed
ids` (§6 SearchPublisher) — "query SearchPublisher for which locators
already have at least one indexed chunk".  The method
`documents_indexed_batch` called at src/pipeline/pdf_processor.py line 135
is absent from the repository's files; it is modelled as the set of
locators whose sanitized identifier has an indexed chunk, agreeing with
the per-item query `is_document_indexed`. -/
def documents_indexed_batch (ids : List PyStr) (blob_names : List PyStr) : List PyStr :=
  blob_names.filter (fun b => decide (sanitizeIdentifier b ∈ ids))

/-- The three-way skip decision of `process_batch` (lines 144-177):
present in both stores → skip entirely; present in Cosmos only → redrive
Chunk→Embed→Publish from the stored record; otherwise run the full stage
sequence. -/
inductive SkipDecision where
  | skipDone
  | redrive
  | fullRun
deriving DecidableEq

/-- The branch structure of the loop body on the two membership bits. -/
def itemDecision (inCosmos inSearch : Bool) : SkipDecision :=
  if inCosmos then (if inSearch then .skipDone else .redrive) else .fullRun

/-- The skip decisions the batch pre-check produces for a work list: both
sets are computed once by batched queries, then each item is decided by
membership. -/
def batchDecisions (store ids : List PyStr) (blobs : List PyStr) : List SkipDecision :=
  let existing := documents_exist_batch store blobs
  let indexed := documents_indexed_batch ids blobs
  blobs.map (fun b => itemDecision (decide (b ∈ existing)) (decide (b ∈ indexed)))

/-- The skip decisions per-item existence queries would produce. -/
def perItemDecisions (store ids : List PyStr) (blobs : List PyStr) : List SkipDecision :=
  blobs.map (fun b => itemDecision (document_exists store b) (is_document_indexed ids b))

/-- The texts dictionary of `process_single_pdf`
(`self.text_extractor.extract_batch(local_paths)`); empty when the
download raised or returned nothing. -/
def psp_texts (env : PipelineEnv) (blob_url : PyStr) : List (PyStr × PyStr) :=
  match env.download blob_url with
  | .error _ => []
  | .ok paths => extract_batch (paths.map (fun p => (p.1, env.pdfOf p.2)))

/-- The metadata dictionary of `process_single_pdf`
(`self.metadata_extractor.extract_batch(texts)`). -/
def psp_metadata (env : PipelineEnv) (blob_url : PyStr) : List (PyStr × PyMeta) :=
  metadata_extract_batch env.infer (psp_texts env blob_url)

/-- The single-document list handed to the chunker by
`process_single_pdf` (lines 74-79): first metadata entry, first text. -/
def psp_documents (env : PipelineEnv) (blob_url : PyStr) : List PipelineDoc :=
  match psp_texts env blob_url, psp_metadata env blob_url with
  | (_, ttext) :: _, (mblob, md) :: _ =>
    [{ blob_name := mblob, success := true, metadata := md, text := ttext }]
  | _, _ => []

/-- The chunks of `process_single_pdf`
(`self.chunker.chunk_batch(documents)`). -/
def psp_chunks (env : PipelineEnv) (blob_url : PyStr) : List ChunkRecord :=
  chunk_batch env.split (psp_documents env blob_url)

/-- `PDFProcessor.process_single_pdf(blob_url, pdf_id)` (lines 36-105):
download, extract, infer metadata, store, chunk, embed, upload; `True`
exactly when at least one chunk upload succeeded; every failure (including
a raised exception, caught by the outer `except`) yields `False`.  The
`finally` cleanup swallows its own exceptions and does not affect the
result. -/
def process_single_pdf (env : PipelineEnv) (blob_url : PyStr) : Bool :=
  match env.download blob_url with
  | .error _ => false
  | .ok paths =>
    if paths = [] then false
    else
      match psp_texts env blob_url, psp_metadata env blob_url with
      | [], _ => false
      | _, [] => false
      | (_, ttext) :: _, (mblob, md) :: _ =>
        if env.storeOk mblob md (ttext.take 1000) then
          let chunks := psp_chunks env blob_url
          if chunks ≠ [] then
            let cwe := generate_embeddings env.embed chunks none
            if 0 < (env.upload cwe).1 then true else false
          else false
        else false

/-- `mode` argument of `process_batch`. -/
inductive Mode where
  | metadata
  | full
deriving DecidableEq

/-- Counter deltas `(successful, failed, skipped)` one loop iteration adds. -/
abbrev TallyDelta := Nat × Nat × Nat

/-- The fall-through processing block of the loop body (lines 178-227):
metadata-only mode downloads, extracts, infers, stores and then cleans up
the temporary files (a cleanup exception is caught by the loop's `except`,
adding a second count for the same item); full mode delegates to
`process_single_pdf`. -/
def process_item_main (env : PipelineEnv) (mode : Mode) (blob_url : PyStr) : TallyDelta :=
  match mode with
  | .full => if process_single_pdf env blob_url then (1, 0, 0) else (0, 1, 0)
  | .metadata =>
    match env.download blob_url with
    | .error _ => (0, 1, 0)
    | .ok paths =>
      if paths = [] then (0, 1, 0)
      else
        let texts := extract_batch (paths.map (fun p => (p.1, env.pdfOf p.2)))
        match texts, metadata_extract_batch env.infer texts with
        | [], _ => (0, 1, 0)
        | _, [] => (0, 1, 0)
        | (_, ttext) :: _, (mblob, md) :: _ =>
          let base : TallyDelta :=
            if env.storeOk mblob md (ttext.take 1000) then (1, 0, 0) else (0, 1, 0)
          if paths.any (fun p => env.cleanupRaises p.2) then
            (base.1, base.2.1 + 1, base.2.2)
          else base

/-- One iteration of the `process_batch` loop (lines 141-227), given the
two pre-computed existence sets: skip when present in both; on the repair
path, redrive chunk/embed/upload from the stored record and skip on
success, falling through to the processing block otherwise (also when the
stored record is missing or the repair raised). -/
def process_item (env : PipelineEnv) (existing indexed : List PyStr)
    (mode : Mode) (blob_url : PyStr) : TallyDelta :=
  match itemDecision (decide (blob_url ∈ existing)) (decide (blob_url ∈ indexed)) with
  | .skipDone => (0, 0, 1)
  | .fullRun => process_item_main env mode blob_url
  | .redrive =>
    match env.getDoc blob_url with
    | .ok (some doc) =>
      let documents : List PipelineDoc :=
        [{ blob_name := blob_url, success := true, metadata := doc.metadata,
           text := doc.text_sample }]
      let chunks := chunk_batch env.split documents
      if chunks ≠ [] then
        let cwe := generate_embeddings env.embed chunks none
        if 0 < (env.upload cwe).1 then (0, 0, 1)
        else process_item_main env mode blob_url
      else process_item_main env mode blob_url
    | .ok none => process_item_main env mode blob_url
    | .error _ => process_item_main env mode blob_url

/-- Aggregate counters returned by `process_batch`. -/
structure BatchResults where
  total : Nat
  successful : Nat
  failed : Nat
  skipped : Nat
deriving DecidableEq

/-- `pdf_urls[:max_pdfs] if max_pdfs else pdf_urls`: Python falsiness
means `max_pdfs = 0` (like `None`) processes the whole list. -/
def pdfs_to_process (pdf_urls : List (PyStr × PyStr)) (max_pdfs : Option Nat) :
    List (PyStr × PyStr) :=
  match max_pdfs with
  | none => pdf_urls
  | some 0 => pdf_urls
  | some m => pdf_urls.take m

/-- One fold step of the `process_batch` loop: bump `total` and add the
item's deltas. -/
def batchStep (env : PipelineEnv) (existing indexed : List PyStr) (mode : Mode)
    (acc : BatchResults) (item : PyStr × PyStr) : BatchResults :=
  let d := process_item env existing indexed mode item.1
  { total := acc.total + 1, successful := acc.successful + d.1,
    failed := acc.failed + d.2.1, skipped := acc.skipped + d.2.2 }

/-- `PDFProcessor.process_batch(pdf_urls, max_pdfs, mode)` (lines
109-230): one batched Cosmos existence query, one batched index query
(falling back to the empty set when it raises), then the per-item loop
accumulating the four counters.  It always returns the counter record (no
item's exception escapes the loop). -/
def process_batch (env : PipelineEnv) (pdf_urls : List (PyStr × PyStr))
    (max_pdfs : Option Nat) (mode : Mode) : BatchResults :=
  let items := pdfs_to_process pdf_urls max_pdfs
  let blob_urls := items.map Prod.fst
  let existing := documents_exist_batch env.cosmosStore blob_urls
  let indexed :=
    if env.indexBatchRaises then []
    else documents_indexed_batch env.searchIndexIds blob_urls
  items.foldl (batchStep env existing indexed mode) ⟨0, 0, 0, 0⟩

/-- **C1 (amended).** For batches of at most 100 items (the `IN`-clause
cap of `documents_exist_batch`), and with the batched index query
answering, the batch existence pre-check yields for every item of the work
list the same skip decision — skip entirely / redrive Chunk→Embed→Publish /
full stage sequence — as per-item existence queries would. -/
theorem C1_batch_precheck_equiv (store ids : List PyStr) (blobs : List PyStr)
    (hlen : blobs.length ≤ 100) :
    batchDecisions store ids blobs = perItemDecisions store ids blobs := by
  rw [batchDecisions, perItemDecisions]
  apply List.map_congr_left
  intro b hb
  have htake : blobs.take 100 = blobs := List.take_of_length_le hlen
  congr 1
  · rw [document_exists, decide_eq_decide, documents_exist_batch,
      documents_exist_batch, htake]
    have h1 : ([b] : List PyStr).take 100 = [b] := rfl
    rw [h1]
    simp [hb]
  · rw [is_document_indexed, decide_eq_decide, documents_indexed_batch]
    simp only [List.mem_filter, decide_eq_true_eq]
    simp [hb]

/-- Witness for C1 (amended) at a concrete input: a two-item batch where
one item is in both stores and the other in neither. -/
theorem C1_batch_precheck_equiv_witness :
    batchDecisions [pyStr "x"] [pyStr "x"] [pyStr "a", pyStr "x"] =
      perItemDecisions [pyStr "x"] [pyStr "x"] [pyStr "a", pyStr "x"] ∧
    perItemDecisions [pyStr "x"] [pyStr "x"] [pyStr "a", pyStr "x"] =
      [SkipDecision.fullRun, SkipDecision.skipDone] :=
  ⟨C1_batch_precheck_equiv [pyStr "x"] [pyStr "x"] [pyStr "a", pyStr "x"] (by decide),
    by decide⟩

/-- **C1 (counterexample).** On a batch of 101 items whose last item is
present in both stores, the batch pre-check (whose Cosmos query only
covers the first 100 names) decides to run the full stage sequence for
that item, while per-item queries would skip it entirely: the claimed
equivalence with per-item existence checks is false. -/
theorem C1_counterexample :
    batchDecisions [pyStr "x"] [pyStr "x"]
        (List.replicate 100 (pyStr "a") ++ [pyStr "x"]) ≠
      perItemDecisions [pyStr "x"] [pyStr "x"]
        (List.replicate 100 (pyStr "a") ++ [pyStr "x"]) := by
  decide

/-- Under the amended hypothesis (full mode, or metadata-mode cleanup not
raising) the fall-through processing block adds exactly one count. -/
theorem process_item_main_sum (env : PipelineEnv) (mode : Mode) (blob_url : PyStr)
    (h : mode = Mode.full ∨ ∀ p, env.cleanupRaises p = false) :
    (process_item_main env mode blob_url).1 + (process_item_main env mode blob_url).2.1 +
      (process_item_main env mode blob_url).2.2 = 1 := by
  rcases mode with _ | _
  · have hclean : ∀ p, env.cleanupRaises p = false := by
      rcases h with h | h
      · exact absurd h (by simp)
      · exact h
    have hany : ∀ paths : List (PyStr × PyStr),
        (paths.any fun p => env.cleanupRaises p.2) = false := by
      intro paths
      simp only [List.any_eq_false]
      intro p _
      simp [hclean p.2]
    rw [process_item_main]
    simp only [hany, Bool.false_eq_true, if_false]
    repeat' split
    all_goals rfl
  · rw [process_item_main]
    split <;> rfl

/-- One loop iteration adds exactly one count under the amended
hypothesis. -/
theorem process_item_sum (env : PipelineEnv) (existing indexed : List PyStr)
    (mode : Mode) (blob_url : PyStr)
    (h : mode = Mode.full ∨ ∀ p, env.cleanupRaises p = false) :
    (process_item env existing indexed mode blob_url).1 +
      (process_item env existing indexed mode blob_url).2.1 +
      (process_item env existing indexed mode blob_url).2.2 = 1 := by
  rw [process_item]
  split
  · rfl
  · exact process_item_main_sum env mode blob_url h
  · split
    · dsimp only
      split
      · split
        · rfl
        · exact process_item_main_sum env mode blob_url h
      · exact process_item_main_sum env mode blob_url h
    · exact process_item_main_sum env mode blob_url h
    · exact process_item_main_sum env mode blob_url h

/-- Folding `batchStep` adds the item count to `total` and distributes it
over the three outcome counters. -/
theorem batchStep_fold (env : PipelineEnv) (existing indexed : List PyStr)
    (mode : Mode) (h : mode = Mode.full ∨ ∀ p, env.cleanupRaises p = false) :
    ∀ (items : List (PyStr × PyStr)) (acc : BatchResults),
      (items.foldl (batchStep env existing indexed mode) acc).total =
        acc.total + items.length ∧
      (items.foldl (batchStep env existing indexed mode) acc).successful +
        (items.foldl (batchStep env existing indexed mode) acc).failed +
        (items.foldl (batchStep env existing indexed mode) acc).skipped =
        acc.successful + acc.failed + acc.skipped + items.length := by
  intro items
  induction items with
  | nil =>
    intro acc
    simp
  | cons i tl ih =>
    intro acc
    rw [List.foldl_cons]
    obtain ⟨h1, h2⟩ := ih (batchStep env existing indexed mode acc i)
    have hsum := process_item_sum env existing indexed mode i.1 h
    rw [h1, h2]
    rw [batchStep]
    refine ⟨by simp only [List.length_cons]; omega, ?_⟩
    simp only [List.length_cons]
    omega

/-- **C2 (amended).** `process_batch` always returns the aggregate
counters, `total` equals the number of items attempted
(`pdf_urls[:max_pdfs]`), and — in full mode, or in metadata-only mode
whenever the temporary-file cleanup does not raise —
`total = successful + failed + skipped`; no item's failure (exceptions
included, which the loop's handler turns into a `failed` count) escapes
the loop.  When the metadata-mode cleanup raises after the success
counter, the same item is counted a second time as `failed`. -/
theorem C2_batch_counters (env : PipelineEnv) (pdf_urls : List (PyStr × PyStr))
    (max_pdfs : Option Nat) (mode : Mode)
    (h : mode = Mode.full ∨ ∀ p, env.cleanupRaises p = false) :
    (process_batch env pdf_urls max_pdfs mode).total =
      (pdfs_to_process pdf_urls max_pdfs).length ∧
    (process_batch env pdf_urls max_pdfs mode).total =
      (process_batch env pdf_urls max_pdfs mode).successful +
        (process_batch env pdf_urls max_pdfs mode).failed +
        (process_batch env pdf_urls max_pdfs mode).skipped := by
  rw [process_batch]
  obtain ⟨h1, h2⟩ := batchStep_fold env
    (documents_exist_batch env.cosmosStore ((pdfs_to_process pdf_urls max_pdfs).map Prod.fst))
    (if env.indexBatchRaises then []
      else documents_indexed_batch env.searchIndexIds
        ((pdfs_to_process pdf_urls max_pdfs).map Prod.fst))
    mode h (pdfs_to_process pdf_urls max_pdfs) ⟨0, 0, 0, 0⟩
  dsimp only at h1 h2
  exact ⟨by omega, by omega⟩

/-- A benign collaborator environment for concrete runs: one blob that
downloads, extracts one page of text, fails metadata inference (yielding
error-marked metadata), stores successfully, embeds, and uploads all its
chunks successfully; both existence stores are empty and cleanup never
raises. -/
def envHappy : PipelineEnv :=
  { download := fun _ => Except.ok [(pyStr "b.pdf", pyStr "/tmp/f.pdf")]
    pdfOf := fun _ => Except.ok [Except.ok (pyStr "judgment text body")]
    infer := fun _ => InferOutcome.raise (pyStr "APIError")
    storeOk := fun _ _ _ => true
    embed := ⟨fun ts => Except.ok (ts.map (fun _ => [1])), fun _ => Except.ok [1]⟩
    upload := fun cs => (cs.length, 0)
    split := rcts_split CHUNK_SIZE CHUNK_OVERLAP
    cosmosStore := []
    searchIndexIds := []
    indexBatchRaises := false
    getDoc := fun _ => Except.ok none
    cleanupRaises := fun _ => false }

/-- Witness for C2 (amended): one item in full mode through `envHappy`;
the counters are `total 1 = successful 1 + failed 0 + skipped 0`. -/
theorem C2_batch_counters_witness :
    (process_batch envHappy [(pyStr "b.pdf", pyStr "pdf_000001")] none Mode.full).total = 1 ∧
    (process_batch envHappy [(pyStr "b.pdf", pyStr "pdf_000001")] none Mode.full).total =
      (process_batch envHappy [(pyStr "b.pdf", pyStr "pdf_000001")] none Mode.full).successful +
        (process_batch envHappy [(pyStr "b.pdf", pyStr "pdf_000001")] none Mode.full).failed +
        (process_batch envHappy [(pyStr "b.pdf", pyStr "pdf_000001")] none Mode.full).skipped := by
  have h := C2_batch_counters envHappy [(pyStr "b.pdf", pyStr "pdf_000001")] none Mode.full
    (Or.inl rfl)
  exact ⟨h.1, h.2⟩

/-- `envHappy` with the temporary-file cleanup raising. -/
def envCleanupFails : PipelineEnv := { envHappy with cleanupRaises := fun _ => true }

/-- **C2 (counterexample).** In metadata-only mode with the cleanup
raising (`os.remove` after the success counter), one item is counted both
`successful` and `failed`: the batch returns
`total 1, successful 1, failed 1, skipped 0`, and
`total ≠ successful + failed + skipped` — the claim's counter identity is
false even though the run returns normally. -/
theorem C2_counterexample :
    process_batch envCleanupFails [(pyStr "b.pdf", pyStr "pdf_000001")] none Mode.metadata =
      ⟨1, 1, 1, 0⟩ ∧
    ¬ ((process_batch envCleanupFails [(pyStr "b.pdf", pyStr "pdf_000001")] none
          Mode.metadata).total =
        (process_batch envCleanupFails [(pyStr "b.pdf", pyStr "pdf_000001")] none
            Mode.metadata).successful +
          (process_batch envCleanupFails [(pyStr "b.pdf", pyStr "pdf_000001")] none
              Mode.metadata).failed +
          (process_batch envCleanupFails [(pyStr "b.pdf", pyStr "pdf_000001")] none
              Mode.metadata).skipped) := by
  constructor
  · decide
  · decide

/-- **C3.** For a document processed through the full stage sequence
(download succeeded with at least one file, and — since text extraction
and metadata extraction are total — the store accepted the record), the
document is reported successfully indexed **iff** at least one of its
chunks was uploaded with success: `process_single_pdf` returns `True`
exactly when the chunk list is non-empty and the upload's succeeded count
is positive; with zero chunks, or zero successful uploads, it returns
`False`. -/
theorem C3_indexed_iff_published (env : PipelineEnv) (blob_url : PyStr)
    (paths : List (PyStr × PyStr)) (hdl : env.download blob_url = Except.ok paths)
    (hpaths : paths ≠ [])
    (hstore : ∀ b m s, env.storeOk b m s = true) :
    process_single_pdf env blob_url = true ↔
      psp_chunks env blob_url ≠ [] ∧
        0 < (env.upload
          (generate_embeddings env.embed (psp_chunks env blob_url) none)).1 := by
  have htexts : psp_texts env blob_url =
      extract_batch (paths.map (fun p => (p.1, env.pdfOf p.2))) := by
    rw [psp_texts, hdl]
  have htne : psp_texts env blob_url ≠ [] := by
    rw [htexts, extract_batch]
    simp [hpaths]
  rcases hT : psp_texts env blob_url with _ | ⟨⟨tb, ttext⟩, ttl⟩
  · exact absurd hT htne
  · have hmne : psp_metadata env blob_url ≠ [] := by
      rw [psp_metadata, metadata_extract_batch]
      have hfil : (psp_texts env blob_url).filter (fun p => p.2 ≠ []) =
          psp_texts env blob_url := by
        rw [List.filter_eq_self]
        intro a ha
        rw [htexts, extract_batch] at ha
        rw [List.mem_map] at ha
        obtain ⟨q, _, rfl⟩ := ha
        simp [extract_text_ne_nil q.2]
      rw [hfil, hT]
      simp
    rcases hM : psp_metadata env blob_url with _ | ⟨⟨mb, md⟩, mtl⟩
    · exact absurd hM hmne
    · rw [process_single_pdf, hdl]
      dsimp only
      rw [if_neg hpaths]
      rw [hT, hM]
      dsimp only
      rw [hstore mb md (ttext.take 1000), if_pos rfl]
      by_cases hchunks : psp_chunks env blob_url ≠ []
      · rw [if_pos hchunks]
        by_cases hup :
            0 < (env.upload (generate_embeddings env.embed (psp_chunks env blob_url) none)).1
        · simp [hup, hchunks]
        · simp [hup]
      · rw [if_neg hchunks]
        simp [hchunks]

/-- Witness for C3 at a concrete input: `envHappy` produces one chunk and
uploads it successfully, so the document is reported indexed. -/
theorem C3_indexed_iff_published_witness :
    process_single_pdf envHappy (pyStr "b.pdf") = true ∧
    psp_chunks envHappy (pyStr "b.pdf") ≠ [] ∧
      0 < (envHappy.upload
        (generate_embeddings envHappy.embed (psp_chunks envHappy (pyStr "b.pdf")) none)).1 := by
  have h := C3_indexed_iff_published envHappy (pyStr "b.pdf")
    [(pyStr "b.pdf", pyStr "/tmp/f.pdf")] rfl (by decide) (fun _ _ _ => rfl)
  have hconc : psp_chunks envHappy (pyStr "b.pdf") ≠ [] ∧
      0 < (envHappy.upload
        (generate_embeddings envHappy.embed (psp_chunks envHappy (pyStr "b.pdf")) none)).1 := by
    constructor
    · decide
    · decide
  exact ⟨h.mpr hconc, hconc⟩

/-! ### C7 support: the calendar-date characterization of `strptimeYMD` -/

/-- Declarative form of "`date_str` parses as a calendar date in the fixed
format `%Y-%m-%d`": a four-digit year (at least 1), a one-or-two-digit
month in 1..12 and a one-or-two-digit day valid for that month and year,
joined by dashes with nothing left over. -/
def ValidYMD (s : PyStr) : Prop :=
  ∃ y mo d : PyStr,
    s = y ++ '-' :: (mo ++ '-' :: d) ∧
    y.length = 4 ∧ (∀ c ∈ y, c.isDigit = true) ∧ 1 ≤ digitsToNat y ∧
    1 ≤ mo.length ∧ mo.length ≤ 2 ∧ (∀ c ∈ mo, c.isDigit = true) ∧
    1 ≤ digitsToNat mo ∧ digitsToNat mo ≤ 12 ∧
    1 ≤ d.length ∧ d.length ≤ 2 ∧ (∀ c ∈ d, c.isDigit = true) ∧
    1 ≤ digitsToNat d ∧ digitsToNat d ≤ daysInMonth (digitsToNat y) (digitsToNat mo)

theorem takeWhile_stop (p : Char → Bool) (l₁ : List Char) (c : Char) (l₂ : List Char)
    (h1 : ∀ x ∈ l₁, p x = true) (hc : p c = false) :
    (l₁ ++ c :: l₂).takeWhile p = l₁ ∧ (l₁ ++ c :: l₂).dropWhile p = c :: l₂ := by
  induction l₁ with
  | nil => simp [List.takeWhile_cons, List.dropWhile_cons, hc]
  | cons a tl ih =>
    have ha : p a = true := h1 a (List.mem_cons_self a tl)
    have ih2 := ih (fun x hx => h1 x (List.mem_cons_of_mem a hx))
    simp only [List.cons_append, List.takeWhile_cons, List.dropWhile_cons, ha, if_true]
    exact ⟨by rw [ih2.1], by rw [ih2.2]⟩

theorem takeWhile_all_eq (p : Char → Bool) (l : List Char) (h : ∀ x ∈ l, p x = true) :
    l.takeWhile p = l ∧ l.dropWhile p = [] := by
  induction l with
  | nil => simp
  | cons a tl ih =>
    have ha : p a = true := h a (List.mem_cons_self a tl)
    have ih2 := ih (fun x hx => h x (List.mem_cons_of_mem a hx))
    simp only [List.takeWhile_cons, List.dropWhile_cons, ha, if_true]
    exact ⟨by rw [ih2.1], ih2.2⟩

theorem strptimeYMD_iff (s : PyStr) : strptimeYMD s = true ↔ ValidYMD s := by
  constructor
  · intro h
    rw [strptimeYMD] at h
    rcases hr1 : s.dropWhile Char.isDigit with _ | ⟨c1, rest2⟩
    · rw [hr1] at h
      cases h
    · rw [hr1] at h
      dsimp only at h
      by_cases hc1 : c1 = '-'
      swap
      · rw [if_neg hc1] at h
        cases h
      · rw [if_pos hc1] at h
        rcases hr3 : rest2.dropWhile Char.isDigit with _ | ⟨c2, rest4⟩
        · rw [hr3] at h
          cases h
        · rw [hr3] at h
          dsimp only at h
          by_cases hc2 : c2 = '-'
          swap
          · rw [if_neg hc2] at h
            cases h
          · rw [if_pos hc2] at h
            simp only [Bool.and_eq_true, decide_eq_true_eq] at h
            obtain ⟨⟨⟨⟨⟨⟨⟨⟨⟨⟨hr5, hy4⟩, hy1⟩, hmo1⟩, hmo2⟩, hmov1⟩, hmov12⟩,
              hd1⟩, hd2⟩, hdv1⟩, hdvm⟩ := h
            refine ⟨s.takeWhile Char.isDigit, rest2.takeWhile Char.isDigit,
              rest4.takeWhile Char.isDigit, ?_, hy4, ?_, hy1, hmo1, hmo2, ?_,
              hmov1, hmov12, hd1, hd2, ?_, hdv1, hdvm⟩
            · have hs1 := List.takeWhile_append_dropWhile (p := Char.isDigit) (l := s)
              have hs2 := List.takeWhile_append_dropWhile (p := Char.isDigit) (l := rest2)
              have hs3 := List.takeWhile_append_dropWhile (p := Char.isDigit) (l := rest4)
              rw [hr5, List.append_nil] at hs3
              rw [hr3, hc2] at hs2
              rw [hs3, hs2]
              rw [hr1, hc1] at hs1
              exact hs1.symm
            · intro c hcmem
              exact List.mem_takeWhile_imp hcmem
            · intro c hcmem
              exact List.mem_takeWhile_imp hcmem
            · intro c hcmem
              exact List.mem_takeWhile_imp hcmem
  · rintro ⟨y, mo, d, hs, hy4, hyd, hy1, hmo1, hmo2, hmod, hmov1, hmov12,
      hd1, hd2, hdd, hdv1, hdvm⟩
    have hdash : Char.isDigit '-' = false := by decide
    have h1 := takeWhile_stop Char.isDigit y '-' (mo ++ '-' :: d) hyd hdash
    have h2 := takeWhile_stop Char.isDigit mo '-' d hmod hdash
    have h3 := takeWhile_all_eq Char.isDigit d hdd
    rw [strptimeYMD]
    rw [hs, h1.2]
    dsimp only
    rw [if_pos rfl, h2.2]
    dsimp only
    rw [if_pos rfl, h3.2, h1.1, h2.1, h3.1]
    simp only [Bool.and_eq_true, decide_eq_true_eq]
    exact ⟨⟨⟨⟨⟨⟨⟨⟨⟨⟨trivial, hy4⟩, hy1⟩, hmo1⟩, hmo2⟩, hmov1⟩, hmov12⟩, hd1⟩, hd2⟩,
      hdv1⟩, hdvm⟩

theorem is_valid_date_iff (s : PyStr) : is_valid_date s = true ↔ ValidYMD s := by
  rw [is_valid_date]
  split_ifs with hnil
  · constructor
    · intro h
      cases h
    · rintro ⟨y, mo, d, hs, _⟩
      rw [hnil] at hs
      have := congrArg List.length hs
      simp only [List.length_nil, List.length_append, List.length_cons] at this
      omega
  · exact strptimeYMD_iff s

/-- Error-marked metadata (court `None`, date `None`) always fails the
validity gate. -/
theorem gate_rejects_error_metadata (t e : PyStr) :
    metadata_is_valid (gateView (create_error_metadata t e)) = false := rfl

/-- **C7 (amended).** The metadata validity predicate
(`DocumentMetadata.is_valid`) accepts exactly the records with (non-blank
case name or non-blank case number) and non-blank court and a judgment
date that parses as a calendar date in the fixed `%Y-%m-%d` format; the
executed pipeline, however, does not enforce this gate: after an
inference failure the error-marked metadata it produces always fails the
gate, yet it is what the pipeline stores and carries forward. -/
theorem C7_metadata_gate :
    (∀ m : DocumentMetadata, metadata_is_valid m = true ↔
      ((pyStrip m.case_name ≠ [] ∨ pyStrip m.case_number ≠ []) ∧
        pyStrip m.court ≠ [] ∧ ValidYMD m.date_of_judgment)) ∧
    (∀ t e : PyStr, metadata_is_valid (gateView (create_error_metadata t e)) = false) ∧
    (∀ (env : PipelineEnv) (blob_url e : PyStr),
      (∀ txt, env.infer txt = InferOutcome.raise e) →
      ∀ pr ∈ psp_metadata env blob_url, metadata_is_valid (gateView pr.2) = false) := by
  refine ⟨?_, gate_rejects_error_metadata, ?_⟩
  · intro m
    rw [metadata_is_valid]
    simp only [Bool.and_eq_true, Bool.or_eq_true, decide_eq_true_eq, ne_eq]
    rw [and_assoc]
    exact and_congr_right (fun _ => and_congr_right (fun _ => is_valid_date_iff _))
  · intro env blob_url e hinf pr hpr
    rw [psp_metadata, metadata_extract_batch, List.mem_map] at hpr
    obtain ⟨q, _, rfl⟩ := hpr
    rw [hinf q.2]
    exact gate_rejects_error_metadata q.2 e

/-- Concrete metadata record produced by `envHappy` for `"b.pdf"` (the
inference failed, so it is the error-marked dictionary). -/
def md7 : PyMeta :=
  ((psp_metadata envHappy (pyStr "b.pdf")).map Prod.snd).getD 0
    (create_error_metadata [] [])

/-- **C7 (counterexample).** A concrete run in which metadata inference
fails: the produced metadata is error-marked and fails the validity gate,
yet the document is **not** treated as an extraction failure — it is
stored, chunked, embedded, uploaded, and reported successfully indexed. -/
theorem C7_metadata_gate_counterexample :
    process_single_pdf envHappy (pyStr "b.pdf") = true ∧
    md7.errorMsg = some (pyStr "APIError") ∧
    metadata_is_valid (gateView md7) = false := by
  refine ⟨by decide, by decide, by decide⟩
